import Mathlib

/-!
Verification development for the solana-lockbox program.

The Rust sources under programs/lockbox are shallowly embedded:
pure state structs become Lean structures, instruction handlers become
functions returning Except LockboxError (a returned error models the
host aborting the whole instruction, so no partial mutation is ever
committed).  Machine integers (u8/u16/u32/u64) are modelled as Nat
together with explicit range guards at every arithmetic step; `as u32`
casts are modelled as reduction mod 2^32.  Public keys and byte values
are opaque and modelled as Nat; SHA-256 is an opaque parameter, since
the handlers only ever compare recomputed digests with stored ones.
-/

namespace Lockbox

/-- Opaque 32-byte public keys, modelled as naturals. -/
abbrev Pubkey := Nat

/-- Opaque byte values (u8 contents are never inspected arithmetically). -/
abbrev Byte := Nat

/-- 2^16, the exclusive bound of u16. -/
def U16LIM : Nat := 2 ^ 16

/-- 2^32, the exclusive bound of u32. -/
def U32LIM : Nat := 2 ^ 32

/-- 2^64, the exclusive bound of u64. -/
def U64LIM : Nat := 2 ^ 64

/-- Error codes from errors.rs (restricted to the variants the embedded
handlers can produce).  `RuntimeAbort` is not an errors.rs variant: it
models a Rust runtime abort (arithmetic overflow under the crate's
build profile, or an out-of-bounds slice), which likewise aborts the
whole instruction. -/
inductive LockboxError where
  | ChunkNotFound
  | MaxEntriesPerChunk
  | InsufficientChunkCapacity
  | EntryNotFound
  | InvalidEntryOffset
  | SubscriptionExpired
  | InsufficientStorageCapacity
  | Unauthorized
  | InvalidDataSize
  | FeatureNotAvailable
  | InvalidThreshold
  | InvalidRecoveryDelay
  | TooManyGuardians
  | GuardianAlreadyExists
  | GuardianNotFound
  | NotActiveGuardian
  | RecoveryNotReady
  | GuardianAlreadyApproved
  | InsufficientApprovals
  | InvalidShareIndex
  | DuplicateShareIndex
  | InsufficientGuardians
  | RecoveryExpired
  | InvalidMasterSecret
  | InvalidProof
  | RecoveryRateLimitExceeded
  | RequestIdOverflow
  | RuntimeAbort
  deriving DecidableEq

/-- Rust's u32 `checked_add`. -/
def checkedAddU32 (a b : Nat) : Option Nat :=
  if a + b < U32LIM then some (a + b) else none

/-- Rust's u32 `checked_sub`. -/
def checkedSubU32 (a b : Nat) : Option Nat :=
  if b ≤ a then some (a - b) else none

/-- Rust's u64 `checked_add`. -/
def checkedAddU64 (a b : Nat) : Option Nat :=
  if a + b < U64LIM then some (a + b) else none

/-- Modelled from the spec: the crate's build profile (the workspace
manifest, which is not under src/) decides what a plain `+=` / `-=` on a
machine integer does on overflow.  Spec section 7 requires arithmetic
overflow and underflow to be always fatal to the operation and never
silently wrapped or saturated, so an unchecked add that leaves the
integer's range aborts the instruction with `RuntimeAbort`. -/
def panicAdd (lim a b : Nat) : Except LockboxError Nat :=
  if a + b < lim then .ok (a + b) else .error .RuntimeAbort

/-- Modelled from the spec: unchecked `-=` on a machine integer, see
`panicAdd`; underflow aborts the instruction. -/
def panicSub (a b : Nat) : Except LockboxError Nat :=
  if b ≤ a then .ok (a - b) else .error .RuntimeAbort

/-- Subscription tiers (state/subscription.rs). -/
inductive SubscriptionTier where
  | Free
  | Basic
  | Premium
  | Pro
  deriving DecidableEq

/-- Per-tier storage capacity in bytes (state/subscription.rs). -/
def SubscriptionTier.max_capacity : SubscriptionTier → Nat
  | .Free => 1024
  | .Basic => 10240
  | .Premium => 102400
  | .Pro => 1048576

/-- Password entry types (state/subscription.rs). -/
inductive PasswordEntryType where
  | Login
  | CreditCard
  | SecureNote
  | Identity
  | ApiKey
  | SshKey
  | CryptoWallet
  deriving DecidableEq

/-- Chunk data types (state/subscription.rs). -/
inductive StorageType where
  | Passwords
  | SharedItems
  | SearchIndex
  | AuditLogs
  deriving DecidableEq

/-- Entry metadata header (state/subscription.rs, DataEntryHeader).
offset, size, category, access_count are u32 values, flags is u8. -/
structure DataEntryHeader where
  entry_id : Nat
  offset : Nat
  size : Nat
  entry_type : PasswordEntryType
  category : Nat
  title_hash : List Byte
  created_at : Int
  last_modified : Int
  access_count : Nat
  flags : Nat
  deriving DecidableEq

/-- Chunk mirror record kept in the master lockbox
(state/subscription.rs, StorageChunkInfo). -/
structure StorageChunkInfo where
  chunk_address : Pubkey
  chunk_index : Nat
  max_capacity : Nat
  size_used : Nat
  data_type : StorageType
  created_at : Int
  last_modified : Int
  deriving DecidableEq

/-- Storage chunk account (state/storage_chunk.rs).  chunk_index is u16,
max_capacity and current_size are u32, entry_count is u16. -/
structure StorageChunk where
  master_lockbox : Pubkey
  owner : Pubkey
  chunk_index : Nat
  max_capacity : Nat
  current_size : Nat
  data_type : StorageType
  encrypted_data : List Byte
  entry_headers : List DataEntryHeader
  entry_count : Nat
  created_at : Int
  last_modified : Int
  bump : Nat
  deriving DecidableEq

/-- StorageChunk::initialize. -/
def initChunk (master owner : Pubkey) (chunk_index initial_capacity : Nat)
    (data_type : StorageType) (bump : Nat) (ts : Int) : StorageChunk :=
  { master_lockbox := master
    owner := owner
    chunk_index := chunk_index
    max_capacity := initial_capacity
    current_size := 0
    data_type := data_type
    encrypted_data := []
    entry_headers := []
    entry_count := 0
    created_at := ts
    last_modified := ts
    bump := bump }

/-- StorageChunk::add_entry.  The caller-supplied header is appended as
is; `encrypted_data.len() as u32` is the length reduced mod 2^32; the
u16 `entry_count += 1` aborts on overflow. -/
def StorageChunk.add_entry (c : StorageChunk) (entry_header : DataEntryHeader)
    (encrypted_data : List Byte) (ts : Int) : Except LockboxError StorageChunk :=
  if c.entry_headers.length < 100 then
    match checkedAddU32 c.current_size (encrypted_data.length % U32LIM) with
    | none => .error .InvalidDataSize
    | some new_size =>
      if new_size ≤ c.max_capacity then
        if c.entry_count + 1 < U16LIM then
          .ok { c with
                entry_headers := c.entry_headers ++ [entry_header]
                entry_count := c.entry_count + 1
                encrypted_data := c.encrypted_data ++ encrypted_data
                current_size := new_size
                last_modified := ts }
        else .error .RuntimeAbort
      else .error .InsufficientChunkCapacity
  else .error .MaxEntriesPerChunk

/-- The offset-shift loop of StorageChunk::update_entry in the growing
case: `h.offset.checked_add(new_size - old_size)` on every header after
the resized one, aborting the whole call on overflow. -/
def shiftUp (d : Nat) : List DataEntryHeader → Except LockboxError (List DataEntryHeader)
  | [] => .ok []
  | h :: t =>
    match checkedAddU32 h.offset d with
    | none => .error .InvalidEntryOffset
    | some o =>
      match shiftUp d t with
      | .ok t' => .ok ({ h with offset := o } :: t')
      | .error e => .error e

/-- The offset-shift loop of StorageChunk::update_entry (shrinking case)
and StorageChunk::delete_entry: `h.offset.checked_sub(d)` on every
header after the modified one. -/
def shiftDown (d : Nat) : List DataEntryHeader → Except LockboxError (List DataEntryHeader)
  | [] => .ok []
  | h :: t =>
    match checkedSubU32 h.offset d with
    | none => .error .InvalidEntryOffset
    | some o =>
      match shiftDown d t with
      | .ok t' => .ok ({ h with offset := o } :: t')
      | .error e => .error e

/-- StorageChunk::update_entry.  `position` is modelled by the
takeWhile/dropWhile split at the first header with the given id.  The
in-place branch re-slices the arena (aborting, like the Rust slice
indexing and `copy_from_slice`, when the range or the source length do
not fit); the resize branch rebuilds the arena and shifts the later
offsets with checked arithmetic.  `new_encrypted_data.len() as u32` is
the length mod 2^32; the u32 `access_count += 1` aborts on overflow. -/
def StorageChunk.update_entry (c : StorageChunk) (entry_id : Nat)
    (new_encrypted_data : List Byte) (ts : Int) : Except LockboxError StorageChunk :=
  match c.entry_headers.dropWhile (fun h => decide (h.entry_id ≠ entry_id)) with
  | [] => .error .EntryNotFound
  | oldh :: post =>
    match (if oldh.size < new_encrypted_data.length % U32LIM then
             checkedAddU32 c.current_size (new_encrypted_data.length % U32LIM - oldh.size)
           else
             checkedSubU32 c.current_size (oldh.size - new_encrypted_data.length % U32LIM)) with
    | none => .error .InvalidDataSize
    | some new_total =>
      if new_total ≤ c.max_capacity then
        if new_encrypted_data.length % U32LIM = oldh.size then
          if oldh.offset + new_encrypted_data.length % U32LIM ≤ c.encrypted_data.length then
            if new_encrypted_data.length = new_encrypted_data.length % U32LIM then
              if oldh.access_count + 1 < U32LIM then
                .ok { c with
                      encrypted_data :=
                        c.encrypted_data.take oldh.offset ++ new_encrypted_data ++
                          c.encrypted_data.drop
                            (oldh.offset + new_encrypted_data.length % U32LIM)
                      entry_headers :=
                        c.entry_headers.takeWhile (fun h => decide (h.entry_id ≠ entry_id)) ++
                          ({ oldh with
                             size := new_encrypted_data.length % U32LIM
                             last_modified := ts
                             access_count := oldh.access_count + 1 } :: post)
                      current_size := new_total
                      last_modified := ts }
              else .error .RuntimeAbort
            else .error .RuntimeAbort
          else .error .RuntimeAbort
        else
          if oldh.offset ≤ c.encrypted_data.length then
            match (if oldh.size < new_encrypted_data.length % U32LIM then
                     shiftUp (new_encrypted_data.length % U32LIM - oldh.size) post
                   else shiftDown (oldh.size - new_encrypted_data.length % U32LIM) post) with
            | .error e => .error e
            | .ok post' =>
              if oldh.access_count + 1 < U32LIM then
                .ok { c with
                      encrypted_data :=
                        c.encrypted_data.take oldh.offset ++ new_encrypted_data ++
                          (if oldh.offset + oldh.size < c.encrypted_data.length then
                             c.encrypted_data.drop (oldh.offset + oldh.size)
                           else [])
                      entry_headers :=
                        c.entry_headers.takeWhile (fun h => decide (h.entry_id ≠ entry_id)) ++
                          ({ oldh with
                             size := new_encrypted_data.length % U32LIM
                             last_modified := ts
                             access_count := oldh.access_count + 1 } :: post')
                      current_size := new_total
                      last_modified := ts }
              else .error .RuntimeAbort
          else .error .RuntimeAbort
      else .error .InsufficientChunkCapacity

/-- StorageChunk::delete_entry.  Splices the byte range out of the
arena, shifts all later offsets down by the removed size
(checked_sub), removes the header and decrements the counters; the
unchecked u16/u32 decrements abort on underflow. -/
def StorageChunk.delete_entry (c : StorageChunk) (entry_id : Nat) (ts : Int) :
    Except LockboxError StorageChunk :=
  match c.entry_headers.dropWhile (fun h => decide (h.entry_id ≠ entry_id)) with
  | [] => .error .EntryNotFound
  | oldh :: post =>
    if oldh.size ≤ c.encrypted_data.length then
      if oldh.offset ≤ c.encrypted_data.length then
        match shiftDown oldh.size post with
        | .error e => .error e
        | .ok post' =>
          if 1 ≤ c.entry_count then
            if oldh.size ≤ c.current_size then
              .ok { c with
                    entry_headers :=
                      c.entry_headers.takeWhile (fun h => decide (h.entry_id ≠ entry_id)) ++
                        post'
                    entry_count := c.entry_count - 1
                    encrypted_data :=
                      c.encrypted_data.take oldh.offset ++
                        (if oldh.offset + oldh.size < c.encrypted_data.length then
                           c.encrypted_data.drop (oldh.offset + oldh.size)
                         else [])
                    current_size := c.current_size - oldh.size
                    last_modified := ts }
            else .error .RuntimeAbort
          else .error .RuntimeAbort
      else .error .RuntimeAbort
    else .error .RuntimeAbort

/-- StorageChunk::get_entry_data: linear scan for the first header with
the id, re-validate the bounds against the current arena length, then
slice. -/
def StorageChunk.get_entry_data (c : StorageChunk) (entry_id : Nat) :
    Except LockboxError (List Byte) :=
  match c.entry_headers.dropWhile (fun h => decide (h.entry_id ≠ entry_id)) with
  | [] => .error .EntryNotFound
  | h :: _ =>
    if h.offset + h.size ≤ c.encrypted_data.length then
      .ok ((c.encrypted_data.drop h.offset).take h.size)
    else .error .InvalidEntryOffset

/-- Master lockbox account (state/master_lockbox.rs).  total_entries,
storage_used, total_capacity, next_entry_id are u64 values,
storage_chunks_count is u16, categories_count is u32. -/
structure MasterLockbox where
  owner : Pubkey
  total_entries : Nat
  storage_chunks_count : Nat
  subscription_tier : SubscriptionTier
  last_accessed : Int
  subscription_expires : Int
  total_capacity : Nat
  storage_used : Nat
  storage_chunks : List StorageChunkInfo
  encrypted_index : List Byte
  next_entry_id : Nat
  categories_count : Nat
  created_at : Int
  bump : Nat
  deriving DecidableEq

/-- MasterLockbox::initialize: fresh vault, Free tier, next_entry_id
starts at 1. -/
def initLockbox (owner : Pubkey) (bump : Nat) (ts : Int) : MasterLockbox :=
  { owner := owner
    total_entries := 0
    storage_chunks_count := 0
    subscription_tier := .Free
    last_accessed := ts
    subscription_expires := 0
    total_capacity := 0
    storage_used := 0
    storage_chunks := []
    encrypted_index := []
    next_entry_id := 1
    categories_count := 0
    created_at := ts
    bump := bump }

/-- The `iter_mut().find(...)` step of MasterLockbox::update_chunk_usage:
locate the first mirror record with the index, record its old size_used
and store the new one.  Returns none when no mirror has the index. -/
def setMirrorSize (chunk_index new_size : Nat) :
    List StorageChunkInfo → Option (Nat × List StorageChunkInfo)
  | [] => none
  | ci :: t =>
    if ci.chunk_index = chunk_index then
      some (ci.size_used, { ci with size_used := new_size } :: t)
    else
      match setMirrorSize chunk_index new_size t with
      | none => none
      | some (old, t') => some (old, ci :: t')

/-- MasterLockbox::update_chunk_usage: find the mirror entry (else
ChunkNotFound), then adjust storage_used by the signed delta with the
unchecked u64 `+=` / `-=` (which abort on leaving the u64 range, see
`panicAdd`). -/
def MasterLockbox.update_chunk_usage (lb : MasterLockbox) (chunk_index new_size : Nat) :
    Except LockboxError MasterLockbox :=
  match setMirrorSize chunk_index new_size lb.storage_chunks with
  | none => .error .ChunkNotFound
  | some (old_size, chunks') =>
    if old_size < new_size then
      match panicAdd U64LIM lb.storage_used (new_size - old_size) with
      | .ok u => .ok { lb with storage_chunks := chunks', storage_used := u }
      | .error e => .error e
    else
      match panicSub lb.storage_used (old_size - new_size) with
      | .ok u => .ok { lb with storage_chunks := chunks', storage_used := u }
      | .error e => .error e

/-- MasterLockbox::has_capacity. -/
def MasterLockbox.has_capacity (lb : MasterLockbox) (additional_bytes : Nat) : Bool :=
  decide (lb.storage_used + additional_bytes ≤ lb.subscription_tier.max_capacity)

/-- MasterLockbox::is_subscription_active: the Free tier is always
active; paid tiers compare the clock against subscription_expires. -/
def MasterLockbox.is_subscription_active (lb : MasterLockbox) (now : Int) : Bool :=
  if lb.subscription_tier = .Free then true
  else decide (now < lb.subscription_expires)

/-- MasterLockbox::get_next_entry_id: return next_entry_id and bump it
(unchecked u64 `+= 1`, see `panicAdd`). -/
def MasterLockbox.get_next_entry_id (lb : MasterLockbox) :
    Except LockboxError (Nat × MasterLockbox) :=
  match panicAdd U64LIM lb.next_entry_id 1 with
  | .ok n => .ok (lb.next_entry_id, { lb with next_entry_id := n })
  | .error e => .error e

/-- MasterLockbox::increment_entries (unchecked u64 `+= 1`). -/
def MasterLockbox.increment_entries (lb : MasterLockbox) :
    Except LockboxError MasterLockbox :=
  match panicAdd U64LIM lb.total_entries 1 with
  | .ok n => .ok { lb with total_entries := n }
  | .error e => .error e

/-- MasterLockbox::decrement_entries: guarded decrement, a no-op at
zero; it cannot fail. -/
def MasterLockbox.decrement_entries (lb : MasterLockbox) : MasterLockbox :=
  if 0 < lb.total_entries then { lb with total_entries := lb.total_entries - 1 }
  else lb

/-- MasterLockbox::touch. -/
def MasterLockbox.touch (lb : MasterLockbox) (ts : Int) : MasterLockbox :=
  { lb with last_accessed := ts }

/-- StorageChunk::available_space: unchecked u32 subtraction
max_capacity - current_size (aborts on underflow). -/
def StorageChunk.available_space (c : StorageChunk) : Except LockboxError Nat :=
  panicSub c.max_capacity c.current_size

/-- StorageChunk::can_fit. -/
def StorageChunk.can_fit (c : StorageChunk) (size : Nat) : Except LockboxError Bool :=
  match c.available_space with
  | .ok a => .ok (decide (size ≤ a))
  | .error e => .error e

/-- The `access_count += 1` on the header found by
StorageChunk::get_entry_header_mut in the retrieve handler (u32,
aborts on overflow). -/
def bumpAccessCount (entry_id : Nat) (l : List DataEntryHeader) :
    Except LockboxError (List DataEntryHeader) :=
  match l.dropWhile (fun h => decide (h.entry_id ≠ entry_id)) with
  | [] => .error .EntryNotFound
  | h :: post =>
    if h.access_count + 1 < U32LIM then
      .ok (l.takeWhile (fun h => decide (h.entry_id ≠ entry_id)) ++
            ({ h with access_count := h.access_count + 1 } :: post))
    else .error .RuntimeAbort

/-- store_password_entry_handler (instructions/password_entry.rs).
Account-address (PDA/signer) constraints are host checks outside this
embedding; the handler body is modelled verbatim: subscription gate,
vault capacity gate, chunk capacity gate, entry-id reservation, header
construction with offset = current_size, chunk insert, mirror update,
counters and timestamps.  Returns the assigned entry id. -/
def store_password_entry_handler (lb : MasterLockbox) (c : StorageChunk) (now : Int)
    (encrypted_data : List Byte) (entry_type : PasswordEntryType) (category : Nat)
    (title_hash : List Byte) :
    Except LockboxError (MasterLockbox × StorageChunk × Nat) :=
  if lb.is_subscription_active now then
    if lb.has_capacity encrypted_data.length then
      match c.can_fit (encrypted_data.length % U32LIM) with
      | .error e => .error e
      | .ok fit =>
        if fit then
          match lb.get_next_entry_id with
          | .error e => .error e
          | .ok (entry_id, lb1) =>
            let entry_header : DataEntryHeader :=
              { entry_id := entry_id
                offset := c.current_size
                size := encrypted_data.length % U32LIM
                entry_type := entry_type
                category := category
                title_hash := title_hash
                created_at := now
                last_modified := now
                access_count := 0
                flags := 0 }
            match c.add_entry entry_header encrypted_data now with
            | .error e => .error e
            | .ok c' =>
              match lb1.update_chunk_usage c'.chunk_index c'.current_size with
              | .error e => .error e
              | .ok lb2 =>
                match lb2.increment_entries with
                | .error e => .error e
                | .ok lb3 => .ok (lb3.touch now, c', entry_id)
        else .error .InsufficientChunkCapacity
    else .error .InsufficientStorageCapacity
  else .error .SubscriptionExpired

/-- retrieve_password_entry_handler (instructions/password_entry.rs):
subscription gate, read, access-count bump, timestamps. -/
def retrieve_password_entry_handler (lb : MasterLockbox) (c : StorageChunk)
    (now : Int) (entry_id : Nat) :
    Except LockboxError (MasterLockbox × StorageChunk × List Byte) :=
  if lb.is_subscription_active now then
    match c.get_entry_data entry_id with
    | .error e => .error e
    | .ok data =>
      match bumpAccessCount entry_id c.entry_headers with
      | .error e => .error e
      | .ok hs =>
        .ok (lb.touch now, { c with entry_headers := hs, last_modified := now }, data)
  else .error .SubscriptionExpired

/-- update_password_entry_handler (instructions/password_entry.rs). -/
def update_password_entry_handler (lb : MasterLockbox) (c : StorageChunk)
    (now : Int) (entry_id : Nat) (new_encrypted_data : List Byte) :
    Except LockboxError (MasterLockbox × StorageChunk) :=
  if lb.is_subscription_active now then
    match c.update_entry entry_id new_encrypted_data now with
    | .error e => .error e
    | .ok c' =>
      match lb.update_chunk_usage c'.chunk_index c'.current_size with
      | .error e => .error e
      | .ok lb1 => .ok (lb1.touch now, c')
  else .error .SubscriptionExpired

/-- delete_password_entry_handler (instructions/password_entry.rs). -/
def delete_password_entry_handler (lb : MasterLockbox) (c : StorageChunk)
    (now : Int) (entry_id : Nat) :
    Except LockboxError (MasterLockbox × StorageChunk) :=
  if lb.is_subscription_active now then
    match c.delete_entry entry_id now with
    | .error e => .error e
    | .ok c' =>
      match lb.update_chunk_usage c'.chunk_index c'.current_size with
      | .error e => .error e
      | .ok lb1 => .ok ((lb1.decrement_entries).touch now, c')
  else .error .SubscriptionExpired

/-- Guardian status (state/recovery.rs). -/
inductive GuardianStatus where
  | PendingAcceptance
  | Active
  | Revoked
  deriving DecidableEq

/-- Recovery request status (state/recovery.rs). -/
inductive RecoveryStatus where
  | Pending
  | ReadyForReconstruction
  | Completed
  | Cancelled
  | Expired
  deriving DecidableEq

/-- 30 days, the fixed expiration window after ready_at
(state/recovery.rs, RECOVERY_EXPIRATION_PERIOD). -/
def RECOVERY_EXPIRATION_PERIOD : Int := 30 * 24 * 60 * 60

/-- V1 guardian with encrypted share (state/recovery.rs). -/
structure Guardian where
  guardian_pubkey : Pubkey
  share_index : Nat
  encrypted_share : List Byte
  added_at : Int
  nickname_encrypted : List Byte
  status : GuardianStatus
  deriving DecidableEq

/-- V1 recovery configuration (state/recovery.rs). -/
structure RecoveryConfig where
  owner : Pubkey
  threshold : Nat
  total_guardians : Nat
  guardians : List Guardian
  recovery_delay : Int
  created_at : Int
  last_modified : Int
  last_request_id : Nat
  deriving DecidableEq

/-- V1 guardian approval with submitted share (state/recovery.rs). -/
structure RecoveryApproval where
  guardian : Pubkey
  share_index : Nat
  share_decrypted : List Byte
  approved_at : Int
  deriving DecidableEq

/-- V1 recovery request (state/recovery.rs). -/
structure RecoveryRequest where
  owner : Pubkey
  requester : Pubkey
  request_id : Nat
  requested_at : Int
  ready_at : Int
  approvals : List RecoveryApproval
  new_owner : Option Pubkey
  status : RecoveryStatus
  expires_at : Int
  deriving DecidableEq

/-- RecoveryRequest::has_sufficient_approvals. -/
def RecoveryRequest.has_sufficient_approvals (r : RecoveryRequest) (threshold : Nat) : Bool :=
  decide (threshold ≤ r.approvals.length)

/-- complete_recovery_handler (instructions/recovery_management.rs):
requires threshold approvals and status ReadyForReconstruction, then
transfers ownership to the designated new owner (or the requester) and
marks the request Completed.  It never reads the clock. -/
def complete_recovery_handler (cfg : RecoveryConfig) (req : RecoveryRequest)
    (lb : MasterLockbox) : Except LockboxError (RecoveryRequest × MasterLockbox) :=
  if req.has_sufficient_approvals cfg.threshold then
    if req.status = .ReadyForReconstruction then
      .ok ({ req with status := .Completed },
           { lb with owner := req.new_owner.getD req.requester })
    else .error .RecoveryNotReady
  else .error .InsufficientApprovals

/-- remove_guardian_handler (instructions/recovery_management.rs):
owner gate, find the guardian, then the lockout guard
`(guardians.len() - 1) as u8 >= threshold` over the total guardian
count (the u8 cast reduces mod 256); on success remove the guardian
and refresh total_guardians. -/
def remove_guardian_handler (cfg : RecoveryConfig) (caller guardian_pubkey : Pubkey)
    (now : Int) : Except LockboxError RecoveryConfig :=
  if cfg.owner = caller then
    match cfg.guardians.dropWhile (fun g => decide (g.guardian_pubkey ≠ guardian_pubkey)) with
    | [] => .error .GuardianNotFound
    | _ :: post =>
      if cfg.threshold ≤ (cfg.guardians.length - 1) % 256 then
        .ok { cfg with
              guardians :=
                cfg.guardians.takeWhile (fun g => decide (g.guardian_pubkey ≠ guardian_pubkey)) ++
                  post
              total_guardians :=
                (cfg.guardians.takeWhile (fun g => decide (g.guardian_pubkey ≠ guardian_pubkey)) ++
                  post).length % 256
              last_modified := now }
      else .error .InsufficientGuardians
  else .error .Unauthorized

/-- Recovery challenge (state/recovery_v2.rs). -/
structure RecoveryChallenge where
  encrypted_challenge : List Byte
  challenge_hash : List Byte
  created_at : Int
  deriving DecidableEq

/-- V2 guardian with share commitment (state/recovery_v2.rs). -/
structure GuardianV2 where
  guardian_pubkey : Pubkey
  share_index : Nat
  share_commitment : List Byte
  added_at : Int
  nickname_encrypted : List Byte
  status : GuardianStatus
  deriving DecidableEq

/-- V2 recovery request (state/recovery_v2.rs). -/
structure RecoveryRequestV2 where
  owner : Pubkey
  requester : Pubkey
  request_id : Nat
  requested_at : Int
  ready_at : Int
  expires_at : Int
  challenge : RecoveryChallenge
  participating_guardians : List Pubkey
  new_owner : Option Pubkey
  status : RecoveryStatus
  deriving DecidableEq

/-- V2 recovery configuration (state/recovery_v2.rs).  last_request_id
is a u64 counter. -/
structure RecoveryConfigV2 where
  owner : Pubkey
  threshold : Nat
  total_guardians : Nat
  guardians : List GuardianV2
  recovery_delay : Int
  created_at : Int
  last_modified : Int
  last_request_id : Nat
  master_secret_hash : List Byte
  last_recovery_attempt : Int
  deriving DecidableEq

/-- RecoveryRequestV2::has_sufficient_participants. -/
def RecoveryRequestV2.has_sufficient_participants (r : RecoveryRequestV2)
    (threshold : Nat) : Bool :=
  decide (threshold ≤ r.participating_guardians.length)

/-- RecoveryRequestV2::has_guardian_confirmed. -/
def RecoveryRequestV2.has_guardian_confirmed (r : RecoveryRequestV2)
    (guardian : Pubkey) : Bool :=
  r.participating_guardians.any (fun g => decide (g = guardian))

/-- RecoveryRequestV2::is_ready_for_proof: inside the
[ready_at, expires_at] window AND status already
ReadyForReconstruction. -/
def RecoveryRequestV2.is_ready_for_proof (r : RecoveryRequestV2) (now : Int) : Bool :=
  decide (r.ready_at ≤ now) && decide (now ≤ r.expires_at) &&
    decide (r.status = .ReadyForReconstruction)

/-- RecoveryConfigV2::is_active_guardian. -/
def RecoveryConfigV2.is_active_guardian (cfg : RecoveryConfigV2) (pubkey : Pubkey) : Bool :=
  cfg.guardians.any (fun g =>
    decide (g.guardian_pubkey = pubkey) && decide (g.status = .Active))

/-- RecoveryConfigV2::check_recovery_rate_limit. -/
def RecoveryConfigV2.check_recovery_rate_limit (cfg : RecoveryConfigV2)
    (now cooldown : Int) : Bool :=
  if cfg.last_recovery_attempt = 0 then true
  else decide (cooldown ≤ now - cfg.last_recovery_attempt)

/-- initiate_recovery_v2_handler
(instructions/recovery_management_v2.rs): active-guardian gate, 1-hour
rate limit, atomic checked `last_request_id + 1` (RequestIdOverflow on
u64 overflow), 80-byte challenge format gate, then the fresh Pending
request with ready_at = now + delay and
expires_at = ready_at + 30 days. -/
def initiate_recovery_v2_handler (cfg : RecoveryConfigV2) (requester : Pubkey)
    (now : Int) (encrypted_challenge challenge_hash : List Byte)
    (new_owner : Option Pubkey) :
    Except LockboxError (RecoveryConfigV2 × RecoveryRequestV2) :=
  if cfg.is_active_guardian requester then
    if cfg.check_recovery_rate_limit now 3600 then
      match checkedAddU64 cfg.last_request_id 1 with
      | none => .error .RequestIdOverflow
      | some request_id =>
        if encrypted_challenge.length = 80 then
          .ok ({ cfg with
                 last_request_id := request_id
                 last_recovery_attempt := now },
               { owner := cfg.owner
                 requester := requester
                 request_id := request_id
                 requested_at := now
                 ready_at := now + cfg.recovery_delay
                 expires_at := now + cfg.recovery_delay + RECOVERY_EXPIRATION_PERIOD
                 challenge :=
                   { encrypted_challenge := encrypted_challenge
                     challenge_hash := challenge_hash
                     created_at := now }
                 participating_guardians := []
                 new_owner := new_owner
                 status := .Pending })
        else .error .InvalidDataSize
    else .error .RecoveryRateLimitExceeded
  else .error .NotActiveGuardian

/-- confirm_participation_handler
(instructions/recovery_management_v2.rs): active-guardian gate,
is_ready_for_proof gate, duplicate gate, then record the guardian and
promote the status to ReadyForReconstruction once the threshold is
reached. -/
def confirm_participation_handler (cfg : RecoveryConfigV2) (req : RecoveryRequestV2)
    (guardian : Pubkey) (now : Int) : Except LockboxError RecoveryRequestV2 :=
  if cfg.is_active_guardian guardian then
    if req.is_ready_for_proof now then
      if req.has_guardian_confirmed guardian then .error .GuardianAlreadyApproved
      else
        let req1 := { req with
                      participating_guardians := req.participating_guardians ++ [guardian] }
        if req1.has_sufficient_participants cfg.threshold then
          .ok { req1 with status := .ReadyForReconstruction }
        else .ok req1
    else .error .RecoveryNotReady
  else .error .NotActiveGuardian

/-- complete_recovery_with_proof_handler
(instructions/recovery_management_v2.rs).  `hash` is SHA-256, passed
as an opaque parameter since the handler only compares digests:
threshold-participants gate, status gate, expiry gate, then the two
commitment checks — SHA-256 of the supplied master secret against the
config's stored hash and SHA-256 of the supplied challenge plaintext
against the request's stored hash.  (The source also computes
hash(challenge_plaintext ++ master_secret) but never compares it — a
TODO left in the source.)  On success the lockbox owner becomes the
designated new owner (or the requester) and the request is marked
Completed. -/
def complete_recovery_with_proof_handler (hash : List Byte → List Byte)
    (cfg : RecoveryConfigV2) (req : RecoveryRequestV2) (lb : MasterLockbox)
    (now : Int) (challenge_plaintext master_secret : List Byte) :
    Except LockboxError (RecoveryRequestV2 × MasterLockbox) :=
  if req.has_sufficient_participants cfg.threshold then
    if req.status = .ReadyForReconstruction then
      if now ≤ req.expires_at then
        if hash master_secret = cfg.master_secret_hash then
          if hash challenge_plaintext = req.challenge.challenge_hash then
            .ok ({ req with status := .Completed },
                 { lb with owner := req.new_owner.getD req.requester })
          else .error .InvalidProof
        else .error .InvalidMasterSecret
      else .error .RecoveryExpired
    else .error .RecoveryNotReady
  else .error .InsufficientApprovals

/-- The state committed after a V2 complete call: on success the new
request/lockbox pair, on failure the pre-call pair (the host aborts the
whole instruction, so an error commits nothing). -/
def committedV2 (r : Except LockboxError (RecoveryRequestV2 × MasterLockbox))
    (req : RecoveryRequestV2) (lb : MasterLockbox) : RecoveryRequestV2 × MasterLockbox :=
  match r with
  | .ok p => p
  | .error _ => (req, lb)

/-- One chunk-level storage operation, as dispatched by the
password-entry handlers: an insert constructs its header exactly as
store_password_entry_handler does (offset = current_size,
size = payload length as u32). -/
inductive ChunkOp where
  | add (entry_id : Nat) (entry_type : PasswordEntryType) (category : Nat)
      (title_hash : List Byte) (data : List Byte) (ts : Int)
  | upd (entry_id : Nat) (data : List Byte) (ts : Int)
  | del (entry_id : Nat) (ts : Int)

/-- Apply one chunk operation. -/
def applyChunkOp (c : StorageChunk) : ChunkOp → Except LockboxError StorageChunk
  | .add entry_id entry_type category title_hash data ts =>
    c.add_entry
      { entry_id := entry_id
        offset := c.current_size
        size := data.length % U32LIM
        entry_type := entry_type
        category := category
        title_hash := title_hash
        created_at := ts
        last_modified := ts
        access_count := 0
        flags := 0 } data ts
  | .upd entry_id data ts => c.update_entry entry_id data ts
  | .del entry_id ts => c.delete_entry entry_id ts

/-- Apply a sequence of chunk operations, stopping at the first
failure (an aborted instruction commits nothing, so a successful run
of the whole list is exactly a sequence of successful operations). -/
def applyChunkOps (c : StorageChunk) : List ChunkOp → Except LockboxError StorageChunk
  | [] => .ok c
  | op :: ops =>
    match applyChunkOp c op with
    | .ok c' => applyChunkOps c' ops
    | .error e => .error e

/-- The operation's payload fits in a u32 length, so the `as u32` cast
of its length is lossless. -/
def opLenOk : ChunkOp → Prop
  | .add _ _ _ _ data _ => data.length < U32LIM
  | .upd _ data _ => data.length < U32LIM
  | .del _ _ => True

instance : DecidablePred opLenOk := by
  intro op
  cases op <;> simp only [opLenOk] <;> infer_instance

/-- Sum of the directory's recorded entry sizes. -/
def sumSizes : List DataEntryHeader → Nat
  | [] => 0
  | h :: t => h.size + sumSizes t

/-- The headers, in directory order, tile the arena contiguously
starting at `off`: each header's offset is `off` plus the sizes of the
headers before it. -/
def contiguousB : Nat → List DataEntryHeader → Bool
  | _, [] => true
  | off, h :: t => decide (h.offset = off) && contiguousB (off + h.size) t

/-- Two headers' byte ranges [offset, offset+size) do not overlap. -/
def DisjointH (a b : DataEntryHeader) : Prop :=
  a.offset + a.size ≤ b.offset ∨ b.offset + b.size ≤ a.offset

/-- The claimed chunk invariant: header sizes sum to current_size,
which equals the arena length; header ranges are pairwise disjoint and
contained in [0, current_size). -/
def chunkInvariant (c : StorageChunk) : Prop :=
  sumSizes c.entry_headers = c.current_size ∧
  c.encrypted_data.length = c.current_size ∧
  List.Pairwise DisjointH c.entry_headers ∧
  ∀ h ∈ c.entry_headers, h.offset + h.size ≤ c.current_size

/-- The strong inductive invariant: the directory tiles [0,
current_size) contiguously in order, the arena has exactly
current_size bytes, and everything fits the u32 capacity. -/
def strongInv (c : StorageChunk) : Prop :=
  contiguousB 0 c.entry_headers = true ∧
  c.current_size = sumSizes c.entry_headers ∧
  c.encrypted_data.length = c.current_size ∧
  c.current_size ≤ c.max_capacity ∧
  c.max_capacity < U32LIM

instance (a b : DataEntryHeader) : Decidable (DisjointH a b) := by
  unfold DisjointH
  infer_instance

/-- Start state for the C3 witness: a fresh 100-byte chunk. -/
def c3wChunk0 : StorageChunk := initChunk 0 0 0 100 .Passwords 0 0

/-- Operations for the C3 witness: insert two bytes, shrink the entry
to one byte, delete it. -/
def c3wOps : List ChunkOp :=
  [.add 1 .Login 0 [] [7, 8] 5, .upd 1 [9] 6, .del 1 7]

/-- Final state of the C3 witness run. -/
def c3wChunk : StorageChunk :=
  { master_lockbox := 0
    owner := 0
    chunk_index := 0
    max_capacity := 100
    current_size := 0
    data_type := .Passwords
    encrypted_data := []
    entry_headers := []
    entry_count := 0
    created_at := 0
    last_modified := 7
    bump := 0 }

/-- Start state for the C3 counterexample: a fresh 1024-byte chunk. -/
def c3BigChunk0 : StorageChunk := initChunk 0 0 0 1024 .Passwords 0 0

/-- The header recorded for the oversized insert of the C3
counterexample: its size field is the truncated length 0. -/
def c3BigHdr : DataEntryHeader :=
  { entry_id := 1
    offset := 0
    size := 0
    entry_type := .Login
    category := 0
    title_hash := []
    created_at := 0
    last_modified := 0
    access_count := 0
    flags := 0 }

/-- State after inserting a 2^32-byte payload: the u32 cast of the
length truncates to 0, so current_size stays 0 while the arena holds
2^32 bytes. -/
def c3BigAfter : StorageChunk :=
  { master_lockbox := 0
    owner := 0
    chunk_index := 0
    max_capacity := 1024
    current_size := 0
    data_type := .Passwords
    encrypted_data := List.replicate U32LIM 0
    entry_headers := [c3BigHdr]
    entry_count := 1
    created_at := 0
    last_modified := 0
    bump := 0 }

/-- Start chunk for the C4 witness. -/
def c4wChunk : StorageChunk := initChunk 0 0 0 100 .Passwords 0 0

/-- Combined on-chain state touched by the modelled instructions: the
vault, one storage chunk, the V2 recovery configuration and the V2
recovery request accounts created so far. -/
structure SysState where
  lb : MasterLockbox
  chunk : StorageChunk
  cfg : RecoveryConfigV2
  reqs : List RecoveryRequestV2

/-- One instruction invocation (its clock reading and arguments). -/
inductive VaultOp where
  | store (now : Int) (data : List Byte) (et : PasswordEntryType) (cat : Nat)
      (th : List Byte)
  | retrieveE (now : Int) (entry_id : Nat)
  | updateE (now : Int) (entry_id : Nat) (data : List Byte)
  | deleteE (now : Int) (entry_id : Nat)
  | initiateV2 (now : Int) (requester : Pubkey) (ec ch : List Byte)
      (no : Option Pubkey)
  | confirmV2 (now : Int) (g : Pubkey) (i : Nat)
  | completeV2 (now : Int) (i : Nat) (cp ms : List Byte)

/-- Execute one instruction on the combined state.  The result carries
the entry id issued by a successful store and the request id issued by
a successful initiate (none otherwise). -/
def applyOp (hash : List Byte → List Byte) (s : SysState) :
    VaultOp → Except LockboxError (SysState × Option Nat × Option Nat)
  | .store now data et cat th =>
    match store_password_entry_handler s.lb s.chunk now data et cat th with
    | .error e => .error e
    | .ok (lb', c', eid) => .ok ({ s with lb := lb', chunk := c' }, some eid, none)
  | .retrieveE now entry_id =>
    match retrieve_password_entry_handler s.lb s.chunk now entry_id with
    | .error e => .error e
    | .ok (lb', c', _) => .ok ({ s with lb := lb', chunk := c' }, none, none)
  | .updateE now entry_id data =>
    match update_password_entry_handler s.lb s.chunk now entry_id data with
    | .error e => .error e
    | .ok (lb', c') => .ok ({ s with lb := lb', chunk := c' }, none, none)
  | .deleteE now entry_id =>
    match delete_password_entry_handler s.lb s.chunk now entry_id with
    | .error e => .error e
    | .ok (lb', c') => .ok ({ s with lb := lb', chunk := c' }, none, none)
  | .initiateV2 now requester ec ch no =>
    match initiate_recovery_v2_handler s.cfg requester now ec ch no with
    | .error e => .error e
    | .ok (cfg', req) =>
      .ok ({ s with cfg := cfg', reqs := s.reqs ++ [req] }, none, some req.request_id)
  | .confirmV2 now g i =>
    match s.reqs[i]? with
    | none => .error .RuntimeAbort
    | some req =>
      match confirm_participation_handler s.cfg req g now with
      | .error e => .error e
      | .ok req' => .ok ({ s with reqs := s.reqs.set i req' }, none, none)
  | .completeV2 now i cp ms =>
    match s.reqs[i]? with
    | none => .error .RuntimeAbort
    | some req =>
      match complete_recovery_with_proof_handler hash s.cfg req s.lb now cp ms with
      | .error e => .error e
      | .ok (req', lb') =>
        .ok ({ s with lb := lb', reqs := s.reqs.set i req' }, none, none)

/-- Run a sequence of instruction invocations.  A failed invocation is
rolled back in full by the host (nothing is committed and no id is
issued), so the run continues from the unchanged state.  Returns the
final state, the issued entry ids and the issued request ids in
order. -/
def runOps (hash : List Byte → List Byte) (s : SysState) :
    List VaultOp → SysState × List Nat × List Nat
  | [] => (s, [], [])
  | op :: ops =>
    match applyOp hash s op with
    | .error _ => runOps hash s ops
    | .ok (s', e?, r?) =>
      ((runOps hash s' ops).1,
       e?.toList ++ (runOps hash s' ops).2.1,
       r?.toList ++ (runOps hash s' ops).2.2)

/-- Concrete V2 recovery configuration for the C5 witness. -/
def c5wCfg : RecoveryConfigV2 :=
  { owner := 7
    threshold := 1
    total_guardians := 0
    guardians := []
    recovery_delay := 86400
    created_at := 0
    last_modified := 0
    last_request_id := 0
    master_secret_hash := []
    last_recovery_attempt := 0 }

/-- Concrete start state for the C5 witness: a freshly initialized
vault and chunk. -/
def c5wState : SysState :=
  { lb := initLockbox 7 0 0
    chunk := initChunk 9 7 0 100 .Passwords 0 0
    cfg := c5wCfg
    reqs := [] }

/-- Concrete operation list for the C5 witness. -/
def c5wOps : List VaultOp := [.store 0 [1, 2] .Login 0 []]

/-- Concrete V2 config for the C1 witness: one-guardian threshold,
stored master-secret commitment [0]. -/
def c1wCfg : RecoveryConfigV2 :=
  { owner := 1
    threshold := 1
    total_guardians := 1
    guardians := []
    recovery_delay := 86400
    created_at := 0
    last_modified := 0
    last_request_id := 1
    master_secret_hash := [0]
    last_recovery_attempt := 0 }

/-- Concrete V2 request for the C1 witness: ready for reconstruction,
one confirmed guardian, stored challenge commitment [0]. -/
def c1wReq : RecoveryRequestV2 :=
  { owner := 1
    requester := 2
    request_id := 1
    requested_at := 0
    ready_at := 100
    expires_at := 200
    challenge := { encrypted_challenge := [], challenge_hash := [0], created_at := 0 }
    participating_guardians := [5]
    new_owner := none
    status := .ReadyForReconstruction }

/-- Concrete V1 config for the C2 counterexample. -/
def c2Cfg1 : RecoveryConfig :=
  { owner := 1
    threshold := 1
    total_guardians := 1
    guardians := []
    recovery_delay := 86400
    created_at := 0
    last_modified := 0
    last_request_id := 1 }

/-- Concrete V1 request for the C2 counterexample: ready for
reconstruction with one approval, ready_at = 100. -/
def c2Req1 : RecoveryRequest :=
  { owner := 1
    requester := 2
    request_id := 1
    requested_at := 0
    ready_at := 100
    approvals := [{ guardian := 5, share_index := 1, share_decrypted := [], approved_at := 0 }]
    new_owner := none
    status := .ReadyForReconstruction
    expires_at := 200 }

/-- Concrete V2 config for the C2 counterexample. -/
def c2Cfg2 : RecoveryConfigV2 :=
  { owner := 1
    threshold := 1
    total_guardians := 1
    guardians := []
    recovery_delay := 86400
    created_at := 0
    last_modified := 0
    last_request_id := 1
    master_secret_hash := [0]
    last_recovery_attempt := 0 }

/-- Concrete V2 request for the C2 counterexample: ready for
reconstruction with one confirmation, ready_at = 100. -/
def c2Req2 : RecoveryRequestV2 :=
  { owner := 1
    requester := 2
    request_id := 1
    requested_at := 0
    ready_at := 100
    expires_at := 200
    challenge := { encrypted_challenge := [], challenge_hash := [0], created_at := 0 }
    participating_guardians := [5]
    new_owner := none
    status := .ReadyForReconstruction }

/-- An active V2 guardian with the given key, for the C6 evaluation. -/
def c6G (k : Nat) : GuardianV2 :=
  { guardian_pubkey := k
    share_index := k
    share_commitment := []
    added_at := 0
    nickname_encrypted := []
    status := .Active }

/-- Concrete V2 config for C6: threshold 2, three active guardians. -/
def c6Cfg : RecoveryConfigV2 :=
  { owner := 1
    threshold := 2
    total_guardians := 3
    guardians := [c6G 2, c6G 3, c6G 4]
    recovery_delay := 86400
    created_at := 0
    last_modified := 0
    last_request_id := 1
    master_secret_hash := []
    last_recovery_attempt := 0 }

/-- Concrete V2 request for C6, exactly as initiate_recovery_v2 creates
it (status Pending, no confirmations), with ready_at = 86400. -/
def c6Req : RecoveryRequestV2 :=
  { owner := 1
    requester := 2
    request_id := 1
    requested_at := 0
    ready_at := 86400
    expires_at := 86400 + 2592000
    challenge := { encrypted_challenge := [], challenge_hash := [], created_at := 0 }
    participating_guardians := []
    new_owner := none
    status := .Pending }

/-- A V1 guardian with the given key, for the C7 witness. -/
def c7G (k : Nat) : Guardian :=
  { guardian_pubkey := k
    share_index := k
    encrypted_share := []
    added_at := 0
    nickname_encrypted := []
    status := .Active }

/-- Concrete V1 config for the C7 witness: two guardians, threshold
two (guardian count equals threshold). -/
def c7wCfg : RecoveryConfig :=
  { owner := 1
    threshold := 2
    total_guardians := 2
    guardians := [c7G 2, c7G 3]
    recovery_delay := 86400
    created_at := 0
    last_modified := 0
    last_request_id := 0 }

/-- Concrete vault for the C8 witness: the mirror records 100 bytes
for chunk 0 while storage_used says only 50 — a desynchronized state
in which shrinking the chunk to 0 must error, not wrap. -/
def c8wLb : MasterLockbox :=
  { initLockbox 1 0 0 with
    storage_chunks := [{ chunk_address := 9, chunk_index := 0, max_capacity := 1024,
                         size_used := 100, data_type := .Passwords, created_at := 0,
                         last_modified := 0 }]
    storage_used := 50 }

theorem sumSizes_append (l₁ l₂ : List DataEntryHeader) :
    sumSizes (l₁ ++ l₂) = sumSizes l₁ + sumSizes l₂ := by
  induction l₁ with
  | nil => simp [sumSizes]
  | cons a t ih => simp [sumSizes, ih, Nat.add_assoc]

theorem contiguousB_append (l₁ l₂ : List DataEntryHeader) (off : Nat) :
    contiguousB off (l₁ ++ l₂) =
      (contiguousB off l₁ && contiguousB (off + sumSizes l₁) l₂) := by
  induction l₁ generalizing off with
  | nil => simp [contiguousB, sumSizes]
  | cons a t ih => simp [contiguousB, sumSizes, ih, Bool.and_assoc, Nat.add_assoc]

theorem contiguousB_bounds (l : List DataEntryHeader) (off : Nat)
    (hc : contiguousB off l = true) :
    ∀ h ∈ l, off ≤ h.offset ∧ h.offset + h.size ≤ off + sumSizes l := by
  induction l generalizing off with
  | nil => simp
  | cons a t ih =>
    simp only [contiguousB, Bool.and_eq_true, decide_eq_true_eq] at hc
    intro h hmem
    rcases List.mem_cons.mp hmem with rfl | hm
    · simp only [sumSizes]
      omega
    · have := ih (off + a.size) hc.2 h hm
      simp only [sumSizes]
      omega

theorem contiguousB_pairwise (l : List DataEntryHeader) (off : Nat)
    (hc : contiguousB off l = true) : List.Pairwise DisjointH l := by
  induction l generalizing off with
  | nil => exact List.Pairwise.nil
  | cons a t ih =>
    simp only [contiguousB, Bool.and_eq_true, decide_eq_true_eq] at hc
    refine List.Pairwise.cons ?_ (ih (off + a.size) hc.2)
    intro b hb
    have := (contiguousB_bounds t (off + a.size) hc.2 b hb).1
    left
    omega

theorem shiftUp_ok (l : List DataEntryHeader) (l' : List DataEntryHeader)
    (d b : Nat) (h : shiftUp d l = .ok l') (hc : contiguousB b l = true) :
    contiguousB (b + d) l' = true ∧ sumSizes l' = sumSizes l := by
  induction l generalizing l' b with
  | nil =>
    simp only [shiftUp, Except.ok.injEq] at h
    subst h
    simp [contiguousB, sumSizes]
  | cons a t ih =>
    simp only [shiftUp] at h
    cases hg : checkedAddU32 a.offset d with
    | none => rw [hg] at h; cases h
    | some o =>
      rw [hg] at h
      cases hr : shiftUp d t with
      | error e => rw [hr] at h; cases h
      | ok t' =>
        rw [hr] at h
        simp only [Except.ok.injEq] at h
        subst h
        simp only [checkedAddU32] at hg
        split at hg
        · simp only [Option.some.injEq] at hg
          simp only [contiguousB, Bool.and_eq_true, decide_eq_true_eq] at hc
          have hrec := ih t' (b + a.size) hr hc.2
          refine ⟨?_, ?_⟩
          · simp only [contiguousB, Bool.and_eq_true, decide_eq_true_eq]
            constructor
            · omega
            · have : b + d + a.size = b + a.size + d := by omega
              rw [this]
              exact hrec.1
          · simp only [sumSizes, hrec.2]
        · cases hg

theorem shiftDown_ok (l : List DataEntryHeader) (l' : List DataEntryHeader)
    (d b : Nat) (h : shiftDown d l = .ok l') (hc : contiguousB b l = true) :
    contiguousB (b - d) l' = true ∧ sumSizes l' = sumSizes l := by
  induction l generalizing l' b with
  | nil =>
    simp only [shiftDown, Except.ok.injEq] at h
    subst h
    simp [contiguousB, sumSizes]
  | cons a t ih =>
    simp only [shiftDown] at h
    cases hg : checkedSubU32 a.offset d with
    | none => rw [hg] at h; cases h
    | some o =>
      rw [hg] at h
      cases hr : shiftDown d t with
      | error e => rw [hr] at h; cases h
      | ok t' =>
        rw [hr] at h
        simp only [Except.ok.injEq] at h
        subst h
        simp only [checkedSubU32] at hg
        split at hg
        · simp only [Option.some.injEq] at hg
          simp only [contiguousB, Bool.and_eq_true, decide_eq_true_eq] at hc
          have hrec := ih t' (b + a.size) hr hc.2
          refine ⟨?_, ?_⟩
          · simp only [contiguousB, Bool.and_eq_true, decide_eq_true_eq]
            constructor
            · omega
            · have : b - d + a.size = b + a.size - d := by omega
              rw [this]
              exact hrec.1
          · simp only [sumSizes, hrec.2]
        · cases hg

theorem strongInv_chunkInvariant (c : StorageChunk) (h : strongInv c) :
    chunkInvariant c := by
  obtain ⟨hc, hsum, hlen, _, _⟩ := h
  refine ⟨hsum.symm, hlen, contiguousB_pairwise _ 0 hc, ?_⟩
  intro x hx
  have := (contiguousB_bounds _ 0 hc x hx).2
  omega

theorem add_preserves (c c' : StorageChunk) (id : Nat) (et : PasswordEntryType)
    (cat : Nat) (th data : List Byte) (ts : Int)
    (hinv : strongInv c) (hlen : data.length < U32LIM)
    (h : applyChunkOp c (.add id et cat th data ts) = .ok c') : strongInv c' := by
  obtain ⟨hcont, hsum, harena, hcap, hmax⟩ := hinv
  have hmod : data.length % U32LIM = data.length := Nat.mod_eq_of_lt hlen
  simp only [applyChunkOp, StorageChunk.add_entry] at h
  by_cases h100 : c.entry_headers.length < 100
  · rw [if_pos h100] at h
    cases hm : checkedAddU32 c.current_size (data.length % U32LIM) with
    | none => rw [hm] at h; exact Except.noConfusion h
    | some ns =>
      rw [hm] at h
      dsimp only at h
      simp only [checkedAddU32] at hm
      split at hm
      · simp only [Option.some.injEq] at hm
        by_cases hcap2 : ns ≤ c.max_capacity
        · rw [if_pos hcap2] at h
          by_cases hcnt : c.entry_count + 1 < U16LIM
          · rw [if_pos hcnt] at h
            simp only [Except.ok.injEq] at h
            subst h
            refine ⟨?_, ?_, ?_, hcap2, hmax⟩
            · rw [contiguousB_append]
              simp only [Bool.and_eq_true]
              refine ⟨hcont, ?_⟩
              simp only [contiguousB, Bool.and_eq_true, decide_eq_true_eq, Nat.zero_add]
              exact ⟨hsum, trivial⟩
            · rw [sumSizes_append]
              simp only [sumSizes]
              omega
            · simp only [List.length_append]
              omega
          · rw [if_neg hcnt] at h; exact Except.noConfusion h
        · rw [if_neg hcap2] at h; exact Except.noConfusion h
      · exact Option.noConfusion hm
  · rw [if_neg h100] at h; exact Except.noConfusion h

theorem upd_preserves (c c' : StorageChunk) (id : Nat) (data : List Byte) (ts : Int)
    (hinv : strongInv c) (hlen : data.length < U32LIM)
    (h : applyChunkOp c (.upd id data ts) = .ok c') : strongInv c' := by
  obtain ⟨hcont, hsum, harena, hcap, hmax⟩ := hinv
  have hmod : data.length % U32LIM = data.length := Nat.mod_eq_of_lt hlen
  simp only [applyChunkOp, StorageChunk.update_entry] at h
  cases hd : c.entry_headers.dropWhile (fun x => decide (x.entry_id ≠ id)) with
  | nil => rw [hd] at h; exact Except.noConfusion h
  | cons oldh post =>
    rw [hd] at h
    dsimp only at h
    have hsplit : c.entry_headers.takeWhile (fun x => decide (x.entry_id ≠ id)) ++
        oldh :: post = c.entry_headers := by
      conv_rhs => rw [← List.takeWhile_append_dropWhile
        (p := fun x => decide (x.entry_id ≠ id)) (l := c.entry_headers)]
      rw [hd]
    set pre := c.entry_headers.takeWhile (fun x => decide (x.entry_id ≠ id)) with hpredef
    have hc0 : contiguousB 0 (pre ++ oldh :: post) = true := by
      rw [hsplit]; exact hcont
    rw [contiguousB_append] at hc0
    simp only [Bool.and_eq_true, contiguousB, decide_eq_true_eq, Nat.zero_add] at hc0
    obtain ⟨hcpre, hoff, hcpost⟩ := hc0
    have hsum2 : c.current_size = sumSizes pre + (oldh.size + sumSizes post) := by
      rw [hsum, ← hsplit, sumSizes_append]
      simp only [sumSizes]
    cases hm : (if oldh.size < data.length % U32LIM then
        checkedAddU32 c.current_size (data.length % U32LIM - oldh.size)
      else checkedSubU32 c.current_size (oldh.size - data.length % U32LIM)) with
    | none => rw [hm] at h; exact Except.noConfusion h
    | some new_total =>
      rw [hm] at h
      dsimp only at h
      have htot : new_total = sumSizes pre + (data.length % U32LIM + sumSizes post) := by
        split at hm
        · simp only [checkedAddU32] at hm
          split at hm
          · simp only [Option.some.injEq] at hm
            omega
          · exact Option.noConfusion hm
        · simp only [checkedSubU32] at hm
          split at hm
          · simp only [Option.some.injEq] at hm
            omega
          · exact Option.noConfusion hm
      by_cases hcap2 : new_total ≤ c.max_capacity
      · rw [if_pos hcap2] at h
        by_cases heq : data.length % U32LIM = oldh.size
        · rw [if_pos heq] at h
          by_cases hb1 : oldh.offset + data.length % U32LIM ≤ c.encrypted_data.length
          · rw [if_pos hb1] at h
            by_cases hb2 : data.length = data.length % U32LIM
            · rw [if_pos hb2] at h
              by_cases hb3 : oldh.access_count + 1 < U32LIM
              · rw [if_pos hb3] at h
                simp only [Except.ok.injEq] at h
                subst h
                refine ⟨?_, ?_, ?_, hcap2, hmax⟩
                · rw [contiguousB_append]
                  simp only [Bool.and_eq_true]
                  refine ⟨hcpre, ?_⟩
                  simp only [contiguousB, Bool.and_eq_true, decide_eq_true_eq, Nat.zero_add]
                  refine ⟨hoff, ?_⟩
                  rw [heq]
                  exact hcpost
                · rw [sumSizes_append]
                  simp only [sumSizes]
                  omega
                · simp only [List.length_append, List.length_take, List.length_drop]
                  omega
              · rw [if_neg hb3] at h; exact Except.noConfusion h
            · rw [if_neg hb2] at h; exact Except.noConfusion h
          · rw [if_neg hb1] at h; exact Except.noConfusion h
        · rw [if_neg heq] at h
          by_cases hb1 : oldh.offset ≤ c.encrypted_data.length
          · rw [if_pos hb1] at h
            cases hs : (if oldh.size < data.length % U32LIM then
                shiftUp (data.length % U32LIM - oldh.size) post
              else shiftDown (oldh.size - data.length % U32LIM) post) with
            | error e => rw [hs] at h; exact Except.noConfusion h
            | ok post' =>
              rw [hs] at h
              dsimp only at h
              have hpost' : contiguousB (sumSizes pre + data.length % U32LIM) post' = true ∧
                  sumSizes post' = sumSizes post := by
                split at hs
                · have hshift := shiftUp_ok post post' (data.length % U32LIM - oldh.size)
                    (sumSizes pre + oldh.size) hs hcpost
                  have harith : sumSizes pre + oldh.size + (data.length % U32LIM - oldh.size) =
                      sumSizes pre + data.length % U32LIM := by omega
                  rw [harith] at hshift
                  exact hshift
                · have hshift := shiftDown_ok post post' (oldh.size - data.length % U32LIM)
                    (sumSizes pre + oldh.size) hs hcpost
                  have harith : sumSizes pre + oldh.size - (oldh.size - data.length % U32LIM) =
                      sumSizes pre + data.length % U32LIM := by omega
                  rw [harith] at hshift
                  exact hshift
              obtain ⟨hp1, hp2⟩ := hpost'
              by_cases hb3 : oldh.access_count + 1 < U32LIM
              · rw [if_pos hb3] at h
                simp only [Except.ok.injEq] at h
                subst h
                refine ⟨?_, ?_, ?_, hcap2, hmax⟩
                · rw [contiguousB_append]
                  simp only [Bool.and_eq_true]
                  refine ⟨hcpre, ?_⟩
                  simp only [contiguousB, Bool.and_eq_true, decide_eq_true_eq, Nat.zero_add]
                  exact ⟨hoff, hp1⟩
                · rw [sumSizes_append]
                  simp only [sumSizes]
                  omega
                · by_cases htl : oldh.offset + oldh.size < c.encrypted_data.length
                  · rw [if_pos htl]
                    simp only [List.length_append, List.length_take, List.length_drop]
                    omega
                  · rw [if_neg htl]
                    simp only [List.length_append, List.length_take, List.length_nil]
                    omega
              · rw [if_neg hb3] at h; exact Except.noConfusion h
          · rw [if_neg hb1] at h; exact Except.noConfusion h
      · rw [if_neg hcap2] at h; exact Except.noConfusion h

theorem del_preserves (c c' : StorageChunk) (id : Nat) (ts : Int)
    (hinv : strongInv c)
    (h : applyChunkOp c (.del id ts) = .ok c') : strongInv c' := by
  obtain ⟨hcont, hsum, harena, hcap, hmax⟩ := hinv
  simp only [applyChunkOp, StorageChunk.delete_entry] at h
  cases hd : c.entry_headers.dropWhile (fun x => decide (x.entry_id ≠ id)) with
  | nil => rw [hd] at h; exact Except.noConfusion h
  | cons oldh post =>
    rw [hd] at h
    dsimp only at h
    have hsplit : c.entry_headers.takeWhile (fun x => decide (x.entry_id ≠ id)) ++
        oldh :: post = c.entry_headers := by
      conv_rhs => rw [← List.takeWhile_append_dropWhile
        (p := fun x => decide (x.entry_id ≠ id)) (l := c.entry_headers)]
      rw [hd]
    set pre := c.entry_headers.takeWhile (fun x => decide (x.entry_id ≠ id)) with hpredef
    have hc0 : contiguousB 0 (pre ++ oldh :: post) = true := by
      rw [hsplit]; exact hcont
    rw [contiguousB_append] at hc0
    simp only [Bool.and_eq_true, contiguousB, decide_eq_true_eq, Nat.zero_add] at hc0
    obtain ⟨hcpre, hoff, hcpost⟩ := hc0
    have hsum2 : c.current_size = sumSizes pre + (oldh.size + sumSizes post) := by
      rw [hsum, ← hsplit, sumSizes_append]
      simp only [sumSizes]
    by_cases hb0 : oldh.size ≤ c.encrypted_data.length
    · rw [if_pos hb0] at h
      by_cases hb1 : oldh.offset ≤ c.encrypted_data.length
      · rw [if_pos hb1] at h
        cases hs : shiftDown oldh.size post with
        | error e => rw [hs] at h; exact Except.noConfusion h
        | ok post' =>
          rw [hs] at h
          dsimp only at h
          have hshift := shiftDown_ok post post' oldh.size (sumSizes pre + oldh.size) hs hcpost
          have harith : sumSizes pre + oldh.size - oldh.size = sumSizes pre := by omega
          rw [harith] at hshift
          obtain ⟨hp1, hp2⟩ := hshift
          by_cases hb2 : 1 ≤ c.entry_count
          · rw [if_pos hb2] at h
            by_cases hb3 : oldh.size ≤ c.current_size
            · rw [if_pos hb3] at h
              simp only [Except.ok.injEq] at h
              subst h
              refine ⟨?_, ?_, ?_, ?_, hmax⟩
              · rw [contiguousB_append]
                simp only [Bool.and_eq_true, Nat.zero_add]
                exact ⟨hcpre, hoff ▸ hp1⟩
              · dsimp only
                rw [sumSizes_append]
                omega
              · by_cases htl : oldh.offset + oldh.size < c.encrypted_data.length
                · rw [if_pos htl]
                  simp only [List.length_append, List.length_take, List.length_drop]
                  omega
                · rw [if_neg htl]
                  simp only [List.length_append, List.length_take, List.length_nil]
                  omega
              · dsimp only
                omega
            · rw [if_neg hb3] at h; exact Except.noConfusion h
          · rw [if_neg hb2] at h; exact Except.noConfusion h
      · rw [if_neg hb1] at h; exact Except.noConfusion h
    · rw [if_neg hb0] at h; exact Except.noConfusion h

/-- Invariant preservation for a single chunk operation whose payload
length fits in u32. -/
theorem applyChunkOp_preserves (c c' : StorageChunk) (op : ChunkOp)
    (hinv : strongInv c) (hop : opLenOk op)
    (h : applyChunkOp c op = .ok c') : strongInv c' := by
  cases op with
  | add id et cat th data ts => exact add_preserves c c' id et cat th data ts hinv hop h
  | upd id data ts => exact upd_preserves c c' id data ts hinv hop h
  | del id ts => exact del_preserves c c' id ts hinv h

theorem applyChunkOps_preserves (ops : List ChunkOp) (c c' : StorageChunk)
    (hinv : strongInv c) (hop : ∀ op ∈ ops, opLenOk op)
    (h : applyChunkOps c ops = .ok c') : strongInv c' := by
  induction ops generalizing c with
  | nil =>
    simp only [applyChunkOps, Except.ok.injEq] at h
    exact h ▸ hinv
  | cons op ops ih =>
    simp only [applyChunkOps] at h
    cases hstep : applyChunkOp c op with
    | error e => rw [hstep] at h; exact Except.noConfusion h
    | ok c₁ =>
      rw [hstep] at h
      exact ih c₁
        (applyChunkOp_preserves c c₁ op hinv (hop op (List.mem_cons_self op ops)) hstep)
        (fun o ho => hop o (List.mem_cons_of_mem op ho)) h

theorem initChunk_strongInv (master owner : Pubkey) (chunk_index cap : Nat)
    (dt : StorageType) (bump : Nat) (ts : Int) (hcap : cap < U32LIM) :
    strongInv (initChunk master owner chunk_index cap dt bump ts) := by
  refine ⟨rfl, rfl, rfl, ?_, hcap⟩
  exact Nat.zero_le cap

theorem dropWhile_append_all {α : Type} {p : α → Bool} {l₁ l₂ : List α}
    (h : ∀ a ∈ l₁, p a = true) :
    (l₁ ++ l₂).dropWhile p = l₂.dropWhile p := by
  induction l₁ with
  | nil => simp
  | cons a t ih =>
    simp only [List.cons_append, List.dropWhile_cons]
    rw [h a (List.mem_cons_self a t), if_pos rfl]
    exact ih (fun x hx => h x (List.mem_cons_of_mem a hx))

/-- C3 (amended).  For every initialized chunk (any u32 capacity) and
every sequence of successful insert/update/delete operations whose
payloads are each shorter than 2^32 bytes (so the `len() as u32` cast
is lossless), the final state satisfies the claimed invariant: header
sizes sum to current_size, which equals the arena length, and the
header ranges are pairwise disjoint and contained in
[0, current_size).  Every prefix of a successful sequence is itself a
successful sequence, so this also gives the invariant after each
intermediate operation. -/
theorem C3_amended_offset_partition (master owner : Pubkey) (chunk_index cap : Nat)
    (dt : StorageType) (bump : Nat) (ts : Int) (ops : List ChunkOp) (c' : StorageChunk)
    (hcap : cap < U32LIM) (hops : ∀ op ∈ ops, opLenOk op)
    (h : applyChunkOps (initChunk master owner chunk_index cap dt bump ts) ops = .ok c') :
    chunkInvariant c' :=
  strongInv_chunkInvariant c'
    (applyChunkOps_preserves ops _ c'
      (initChunk_strongInv master owner chunk_index cap dt bump ts hcap) hops h)

theorem C3_amended_offset_partition_witness : chunkInvariant c3wChunk :=
  C3_amended_offset_partition 0 0 0 100 .Passwords 0 0 c3wOps c3wChunk
    (by decide) (by decide) (by rfl)

/-- C3 (counterexample).  Inserting a payload of exactly 2^32 bytes
into a fresh chunk succeeds — `len() as u32` truncates the length to
0, so the capacity check passes — and leaves a state where the arena
has 2^32 bytes while current_size and the header sizes say 0, so the
claimed invariant fails after a successful add_entry. -/
theorem c3ctr_aux (data : List Byte) (hlen : data.length = U32LIM) :
    applyChunkOp c3BigChunk0 (.add 1 .Login 0 [] data 0) =
      .ok { c3BigAfter with encrypted_data := data } := by
  simp only [applyChunkOp, StorageChunk.add_entry, c3BigChunk0, initChunk, List.length_nil]
  rw [hlen, Nat.mod_self]
  rw [if_pos (by norm_num)]
  rw [show checkedAddU32 0 0 = some 0 by norm_num [checkedAddU32, U32LIM]]
  dsimp only
  rw [if_pos (by norm_num), if_pos (by norm_num [U16LIM])]
  simp only [c3BigAfter, c3BigHdr, List.nil_append]

theorem C3_counterexample :
    applyChunkOp c3BigChunk0 (.add 1 .Login 0 [] (List.replicate U32LIM 0) 0) =
      .ok c3BigAfter ∧ ¬ chunkInvariant c3BigAfter := by
  constructor
  · exact c3ctr_aux (List.replicate U32LIM 0) (List.length_replicate _ _)
  · intro hinv
    have h2 := hinv.2.1
    simp only [c3BigAfter, List.length_replicate] at h2
    exact absurd h2 (by norm_num [U32LIM])

/-- C4.  For every chunk satisfying the chunk invariant (with
representable u32 capacity), inserting a payload that fits (entry
count and directory below 100, current_size + payload length within
max_capacity) under a fresh entry id succeeds, and reading that entry
id back returns exactly the inserted payload bytes. -/
theorem C4_roundtrip (c : StorageChunk) (id : Nat) (et : PasswordEntryType)
    (cat : Nat) (th data : List Byte) (ts : Int)
    (hinv : chunkInvariant c) (hmaxrep : c.max_capacity < U32LIM)
    (h100 : c.entry_headers.length < 100) (hcnt : c.entry_count < 100)
    (hfits : c.current_size + data.length ≤ c.max_capacity)
    (hfresh : ∀ x ∈ c.entry_headers, x.entry_id ≠ id) :
    ∃ c', applyChunkOp c (.add id et cat th data ts) = .ok c' ∧
      c'.get_entry_data id = .ok data := by
  obtain ⟨hsum, harena, _, _⟩ := hinv
  have hlen : data.length < U32LIM := by omega
  have hmod : data.length % U32LIM = data.length := Nat.mod_eq_of_lt hlen
  have h16 : U16LIM = 65536 := by norm_num [U16LIM]
  have hok : applyChunkOp c (.add id et cat th data ts) =
      .ok { c with
            entry_headers := c.entry_headers ++
              [{ entry_id := id, offset := c.current_size, size := data.length % U32LIM,
                 entry_type := et, category := cat, title_hash := th, created_at := ts,
                 last_modified := ts, access_count := 0, flags := 0 }]
            entry_count := c.entry_count + 1
            encrypted_data := c.encrypted_data ++ data
            current_size := c.current_size + data.length % U32LIM
            last_modified := ts } := by
    simp only [applyChunkOp, StorageChunk.add_entry]
    rw [if_pos h100]
    have hadd : checkedAddU32 c.current_size (data.length % U32LIM) =
        some (c.current_size + data.length % U32LIM) := by
      simp only [checkedAddU32]
      rw [if_pos (by omega)]
    rw [hadd]
    dsimp only
    rw [if_pos (by omega : c.current_size + data.length % U32LIM ≤ c.max_capacity)]
    rw [if_pos (by omega : c.entry_count + 1 < U16LIM)]
  refine ⟨_, hok, ?_⟩
  simp only [StorageChunk.get_entry_data]
  have hall : ∀ x ∈ c.entry_headers, (fun y => decide (y.entry_id ≠ id)) x = true := by
    intro x hx
    simp [hfresh x hx]
  rw [dropWhile_append_all hall]
  simp only [List.dropWhile_cons, List.dropWhile_nil]
  rw [if_neg (by simp)]
  dsimp only
  rw [if_pos (by simp only [List.length_append]; omega)]
  rw [hmod]
  have hcur : c.current_size = c.encrypted_data.length := harena.symm
  rw [hcur, List.drop_left, List.take_length]

theorem C4_roundtrip_witness :
    ∃ c', applyChunkOp c4wChunk (.add 1 .Login 0 [] [3, 4, 5] 0) = .ok c' ∧
      c'.get_entry_data 1 = .ok [3, 4, 5] :=
  C4_roundtrip c4wChunk 1 .Login 0 [] [3, 4, 5] 0
    ⟨rfl, rfl, List.Pairwise.nil, by simp [c4wChunk, initChunk]⟩
    (by decide) (by decide) (by decide) (by decide) (by simp [c4wChunk, initChunk])

theorem get_next_spec (lb : MasterLockbox) (id : Nat) (lb' : MasterLockbox)
    (h : lb.get_next_entry_id = .ok (id, lb')) :
    id = lb.next_entry_id ∧ lb'.next_entry_id = lb.next_entry_id + 1 := by
  simp only [MasterLockbox.get_next_entry_id] at h
  cases hp : panicAdd U64LIM lb.next_entry_id 1 with
  | error e => rw [hp] at h; exact Except.noConfusion h
  | ok n =>
    rw [hp] at h
    dsimp only at h
    simp only [Except.ok.injEq, Prod.mk.injEq] at h
    obtain ⟨h1, h2⟩ := h
    have hn : n = lb.next_entry_id + 1 := by
      simp only [panicAdd] at hp
      split at hp
      · simp only [Except.ok.injEq] at hp
        omega
      · exact Except.noConfusion hp
    subst h2
    exact ⟨h1.symm, hn⟩

theorem update_usage_next (lb : MasterLockbox) (i n : Nat) (lb' : MasterLockbox)
    (h : lb.update_chunk_usage i n = .ok lb') :
    lb'.next_entry_id = lb.next_entry_id := by
  simp only [MasterLockbox.update_chunk_usage] at h
  split at h
  · exact Except.noConfusion h
  · split at h
    · split at h
      · simp only [Except.ok.injEq] at h
        subst h
        rfl
      · exact Except.noConfusion h
    · split at h
      · simp only [Except.ok.injEq] at h
        subst h
        rfl
      · exact Except.noConfusion h

theorem increment_next (lb lb' : MasterLockbox)
    (h : lb.increment_entries = .ok lb') :
    lb'.next_entry_id = lb.next_entry_id := by
  simp only [MasterLockbox.increment_entries, panicAdd] at h
  split at h
  · simp only [Except.ok.injEq] at h
    subst h
    rfl
  · exact Except.noConfusion h

theorem decrement_next (lb : MasterLockbox) :
    (lb.decrement_entries).next_entry_id = lb.next_entry_id := by
  simp only [MasterLockbox.decrement_entries]
  split <;> rfl

theorem store_next (lb : MasterLockbox) (c : StorageChunk) (now : Int)
    (data : List Byte) (et : PasswordEntryType) (cat : Nat) (th : List Byte)
    (lb' : MasterLockbox) (c' : StorageChunk) (eid : Nat)
    (h : store_password_entry_handler lb c now data et cat th = .ok (lb', c', eid)) :
    eid = lb.next_entry_id ∧ lb'.next_entry_id = lb.next_entry_id + 1 := by
  simp only [store_password_entry_handler] at h
  split at h
  · split at h
    · split at h
      · exact Except.noConfusion h
      · split at h
        · split at h
          · exact Except.noConfusion h
          · rename_i entry_id lb1 hnext
            split at h
            · exact Except.noConfusion h
            · rename_i c2 hadd
              split at h
              · exact Except.noConfusion h
              · rename_i lb2 hupd
                split at h
                · exact Except.noConfusion h
                · rename_i lb3 hinc
                  simp only [Except.ok.injEq, Prod.mk.injEq] at h
                  obtain ⟨hlb, hc, heid⟩ := h
                  obtain ⟨hid, hn1⟩ := get_next_spec lb entry_id lb1 hnext
                  have hn2 := update_usage_next lb1 c2.chunk_index c2.current_size lb2 hupd
                  have hn3 := increment_next lb2 lb3 hinc
                  subst hlb
                  refine ⟨?_, ?_⟩
                  · omega
                  · simp only [MasterLockbox.touch]
                    omega
        · exact Except.noConfusion h
    · exact Except.noConfusion h
  · exact Except.noConfusion h

theorem retrieve_next (lb : MasterLockbox) (c : StorageChunk) (now : Int)
    (entry_id : Nat) (lb' : MasterLockbox) (c' : StorageChunk) (d : List Byte)
    (h : retrieve_password_entry_handler lb c now entry_id = .ok (lb', c', d)) :
    lb'.next_entry_id = lb.next_entry_id := by
  simp only [retrieve_password_entry_handler] at h
  split at h
  · split at h
    · exact Except.noConfusion h
    · split at h
      · exact Except.noConfusion h
      · simp only [Except.ok.injEq, Prod.mk.injEq] at h
        obtain ⟨hlb, _, _⟩ := h
        subst hlb
        rfl
  · exact Except.noConfusion h

theorem updh_next (lb : MasterLockbox) (c : StorageChunk) (now : Int)
    (entry_id : Nat) (data : List Byte) (lb' : MasterLockbox) (c' : StorageChunk)
    (h : update_password_entry_handler lb c now entry_id data = .ok (lb', c')) :
    lb'.next_entry_id = lb.next_entry_id := by
  simp only [update_password_entry_handler] at h
  split at h
  · split at h
    · exact Except.noConfusion h
    · rename_i c2 hupdc
      split at h
      · exact Except.noConfusion h
      · rename_i lb1 hupd
        simp only [Except.ok.injEq, Prod.mk.injEq] at h
        obtain ⟨hlb, _⟩ := h
        subst hlb
        have := update_usage_next lb c2.chunk_index c2.current_size lb1 hupd
        simp only [MasterLockbox.touch]
        omega
  · exact Except.noConfusion h

theorem delh_next (lb : MasterLockbox) (c : StorageChunk) (now : Int)
    (entry_id : Nat) (lb' : MasterLockbox) (c' : StorageChunk)
    (h : delete_password_entry_handler lb c now entry_id = .ok (lb', c')) :
    lb'.next_entry_id = lb.next_entry_id := by
  simp only [delete_password_entry_handler] at h
  split at h
  · split at h
    · exact Except.noConfusion h
    · rename_i c2 hdelc
      split at h
      · exact Except.noConfusion h
      · rename_i lb1 hupd
        simp only [Except.ok.injEq, Prod.mk.injEq] at h
        obtain ⟨hlb, _⟩ := h
        subst hlb
        have h1 := update_usage_next lb c2.chunk_index c2.current_size lb1 hupd
        have h2 := decrement_next lb1
        simp only [MasterLockbox.touch]
        omega
  · exact Except.noConfusion h

theorem initiateV2_spec (cfg : RecoveryConfigV2) (requester : Pubkey) (now : Int)
    (ec ch : List Byte) (no : Option Pubkey) (cfg' : RecoveryConfigV2)
    (req : RecoveryRequestV2)
    (h : initiate_recovery_v2_handler cfg requester now ec ch no = .ok (cfg', req)) :
    req.request_id = cfg.last_request_id + 1 ∧
    cfg'.last_request_id = cfg.last_request_id + 1 := by
  simp only [initiate_recovery_v2_handler] at h
  split at h
  · split at h
    · cases hp : checkedAddU64 cfg.last_request_id 1 with
      | none => rw [hp] at h; exact Except.noConfusion h
      | some rid =>
        rw [hp] at h
        dsimp only at h
        have hrid : rid = cfg.last_request_id + 1 := by
          simp only [checkedAddU64] at hp
          split at hp
          · simp only [Option.some.injEq] at hp
            omega
          · exact Option.noConfusion hp
        split at h
        · simp only [Except.ok.injEq, Prod.mk.injEq] at h
          obtain ⟨hcfg, hreq⟩ := h
          subst hcfg
          subst hreq
          exact ⟨hrid, hrid⟩
        · exact Except.noConfusion h
    · exact Except.noConfusion h
  · exact Except.noConfusion h

theorem completeV2_next (hash : List Byte → List Byte) (cfg : RecoveryConfigV2)
    (req : RecoveryRequestV2) (lb : MasterLockbox) (now : Int)
    (cp ms : List Byte) (req' : RecoveryRequestV2) (lb' : MasterLockbox)
    (h : complete_recovery_with_proof_handler hash cfg req lb now cp ms = .ok (req', lb')) :
    lb'.next_entry_id = lb.next_entry_id := by
  simp only [complete_recovery_with_proof_handler] at h
  split at h
  · split at h
    · split at h
      · split at h
        · split at h
          · simp only [Except.ok.injEq, Prod.mk.injEq] at h
            obtain ⟨_, hlb⟩ := h
            subst hlb
            rfl
          · exact Except.noConfusion h
        · exact Except.noConfusion h
      · exact Except.noConfusion h
    · exact Except.noConfusion h
  · exact Except.noConfusion h

theorem applyOp_counters (hash : List Byte → List Byte) (s : SysState) (op : VaultOp)
    (s' : SysState) (eo ro : Option Nat)
    (h : applyOp hash s op = .ok (s', eo, ro)) :
    ((eo = none ∧ s'.lb.next_entry_id = s.lb.next_entry_id) ∨
      (eo = some s.lb.next_entry_id ∧
        s'.lb.next_entry_id = s.lb.next_entry_id + 1)) ∧
    ((ro = none ∧ s'.cfg.last_request_id = s.cfg.last_request_id) ∨
      (ro = some (s.cfg.last_request_id + 1) ∧
        s'.cfg.last_request_id = s.cfg.last_request_id + 1)) := by
  cases op with
  | store now data et cat th =>
    simp only [applyOp] at h
    split at h
    · exact Except.noConfusion h
    · rename_i lb' c' eid hst
      simp only [Except.ok.injEq, Prod.mk.injEq] at h
      obtain ⟨hs, he, hr⟩ := h
      subst hs
      subst he
      subst hr
      obtain ⟨h1, h2⟩ := store_next s.lb s.chunk now data et cat th lb' c' eid hst
      refine ⟨Or.inr ⟨by rw [h1], h2⟩, Or.inl ⟨rfl, rfl⟩⟩
  | retrieveE now entry_id =>
    simp only [applyOp] at h
    split at h
    · exact Except.noConfusion h
    · rename_i lb' c' d hst
      simp only [Except.ok.injEq, Prod.mk.injEq] at h
      obtain ⟨hs, he, hr⟩ := h
      subst hs
      subst he
      subst hr
      exact ⟨Or.inl ⟨rfl, retrieve_next s.lb s.chunk now entry_id lb' c' d hst⟩,
        Or.inl ⟨rfl, rfl⟩⟩
  | updateE now entry_id data =>
    simp only [applyOp] at h
    split at h
    · exact Except.noConfusion h
    · rename_i lb' c' hst
      simp only [Except.ok.injEq, Prod.mk.injEq] at h
      obtain ⟨hs, he, hr⟩ := h
      subst hs
      subst he
      subst hr
      exact ⟨Or.inl ⟨rfl, updh_next s.lb s.chunk now entry_id data lb' c' hst⟩,
        Or.inl ⟨rfl, rfl⟩⟩
  | deleteE now entry_id =>
    simp only [applyOp] at h
    split at h
    · exact Except.noConfusion h
    · rename_i lb' c' hst
      simp only [Except.ok.injEq, Prod.mk.injEq] at h
      obtain ⟨hs, he, hr⟩ := h
      subst hs
      subst he
      subst hr
      exact ⟨Or.inl ⟨rfl, delh_next s.lb s.chunk now entry_id lb' c' hst⟩,
        Or.inl ⟨rfl, rfl⟩⟩
  | initiateV2 now requester ec ch no =>
    simp only [applyOp] at h
    split at h
    · exact Except.noConfusion h
    · rename_i cfg' req hst
      simp only [Except.ok.injEq, Prod.mk.injEq] at h
      obtain ⟨hs, he, hr⟩ := h
      subst hs
      subst he
      subst hr
      obtain ⟨h1, h2⟩ := initiateV2_spec s.cfg requester now ec ch no cfg' req hst
      exact ⟨Or.inl ⟨rfl, rfl⟩, Or.inr ⟨by rw [h1], h2⟩⟩
  | confirmV2 now g i =>
    simp only [applyOp] at h
    split at h
    · exact Except.noConfusion h
    · rename_i req hget
      split at h
      · exact Except.noConfusion h
      · rename_i req' hst
        simp only [Except.ok.injEq, Prod.mk.injEq] at h
        obtain ⟨hs, he, hr⟩ := h
        subst hs
        subst he
        subst hr
        exact ⟨Or.inl ⟨rfl, rfl⟩, Or.inl ⟨rfl, rfl⟩⟩
  | completeV2 now i cp ms =>
    simp only [applyOp] at h
    split at h
    · exact Except.noConfusion h
    · rename_i req hget
      split at h
      · exact Except.noConfusion h
      · rename_i req' lb' hst
        simp only [Except.ok.injEq, Prod.mk.injEq] at h
        obtain ⟨hs, he, hr⟩ := h
        subst hs
        subst he
        subst hr
        exact ⟨Or.inl ⟨rfl, completeV2_next hash s.cfg req s.lb now cp ms req' lb' hst⟩,
          Or.inl ⟨rfl, rfl⟩⟩

theorem runOps_spec (hash : List Byte → List Byte) (ops : List VaultOp) :
    ∀ s : SysState,
    s.lb.next_entry_id ≤ (runOps hash s ops).1.lb.next_entry_id ∧
    s.cfg.last_request_id ≤ (runOps hash s ops).1.cfg.last_request_id ∧
    List.Pairwise (· < ·) (runOps hash s ops).2.1 ∧
    (∀ e ∈ (runOps hash s ops).2.1,
      s.lb.next_entry_id ≤ e ∧ e < (runOps hash s ops).1.lb.next_entry_id) ∧
    List.Pairwise (· < ·) (runOps hash s ops).2.2 ∧
    (∀ r ∈ (runOps hash s ops).2.2,
      s.cfg.last_request_id < r ∧ r ≤ (runOps hash s ops).1.cfg.last_request_id) := by
  induction ops with
  | nil =>
    intro s
    simp [runOps]
  | cons op ops ih =>
    intro s
    cases happ : applyOp hash s op with
    | error e =>
      simp only [runOps, happ]
      exact ih s
    | ok t =>
      obtain ⟨s₁, eo, ro⟩ := t
      simp only [runOps, happ]
      obtain ⟨hstep1, hstep2⟩ := applyOp_counters hash s op s₁ eo ro happ
      obtain ⟨ih1, ih2, ih3, ih4, ih5, ih6⟩ := ih s₁
      refine ⟨?_, ?_, ?_, ?_, ?_, ?_⟩
      · rcases hstep1 with ⟨_, hq⟩ | ⟨_, hq⟩ <;> omega
      · rcases hstep2 with ⟨_, hq⟩ | ⟨_, hq⟩ <;> omega
      · rcases hstep1 with ⟨hnone, hq⟩ | ⟨hsome, hq⟩
        · subst hnone
          simpa using ih3
        · subst hsome
          simp only [Option.toList_some, List.singleton_append]
          refine List.Pairwise.cons ?_ ih3
          intro b hb
          have hbb := (ih4 b hb).1
          omega
      · rcases hstep1 with ⟨hnone, hq⟩ | ⟨hsome, hq⟩
        · subst hnone
          intro e he
          simp only [Option.toList_none, List.nil_append] at he
          have := ih4 e he
          omega
        · subst hsome
          intro e he
          simp only [Option.toList_some, List.singleton_append, List.mem_cons] at he
          rcases he with rfl | he
          · omega
          · have := ih4 e he
            omega
      · rcases hstep2 with ⟨hnone, hq⟩ | ⟨hsome, hq⟩
        · subst hnone
          simpa using ih5
        · subst hsome
          simp only [Option.toList_some, List.singleton_append]
          refine List.Pairwise.cons ?_ ih5
          intro b hb
          have hbb := (ih6 b hb).1
          omega
      · rcases hstep2 with ⟨hnone, hq⟩ | ⟨hsome, hq⟩
        · subst hnone
          intro r hr
          simp only [Option.toList_none, List.nil_append] at hr
          have := ih6 r hr
          omega
        · subst hsome
          intro r hr
          simp only [Option.toList_some, List.singleton_append, List.mem_cons] at hr
          rcases hr with rfl | hr
          · omega
          · have := ih6 r hr
            omega

/-- C5.  Along any sequence of instruction invocations from a state
whose vault counter is at least 1 (MasterLockbox::initialize starts it
at exactly 1): next_entry_id and last_request_id never decrease, the
issued entry ids are pairwise distinct and never 0, the issued request
ids are pairwise distinct, and an invocation that fails commits
nothing (the run continues from the unchanged state, so a failed
operation never leaves a counter advanced). -/
theorem C5_monotonic_ids (hash : List Byte → List Byte) (s : SysState)
    (ops : List VaultOp) (hstart : 1 ≤ s.lb.next_entry_id) :
    s.lb.next_entry_id ≤ (runOps hash s ops).1.lb.next_entry_id ∧
    s.cfg.last_request_id ≤ (runOps hash s ops).1.cfg.last_request_id ∧
    ((runOps hash s ops).2.1).Nodup ∧
    (∀ e ∈ (runOps hash s ops).2.1, 1 ≤ e) ∧
    ((runOps hash s ops).2.2).Nodup ∧
    (∀ owner bump ts, (initLockbox owner bump ts).next_entry_id = 1) ∧
    (∀ op ops₂, (applyOp hash s op).isOk = false →
      runOps hash s (op :: ops₂) = runOps hash s ops₂) := by
  obtain ⟨h1, h2, h3, h4, h5, h6⟩ := runOps_spec hash ops s
  refine ⟨h1, h2, h3.imp Nat.ne_of_lt, ?_, h5.imp Nat.ne_of_lt, fun _ _ _ => rfl, ?_⟩
  · intro e he
    have := (h4 e he).1
    omega
  · intro op ops₂ hfail
    simp only [runOps]
    cases happ : applyOp hash s op with
    | error e => rfl
    | ok t =>
      rw [happ] at hfail
      exact absurd hfail (by simp [Except.isOk, Except.toBool])

theorem C5_monotonic_ids_witness :
    c5wState.lb.next_entry_id ≤
      (runOps (fun _ => []) c5wState c5wOps).1.lb.next_entry_id ∧
    c5wState.cfg.last_request_id ≤
      (runOps (fun _ => []) c5wState c5wOps).1.cfg.last_request_id ∧
    ((runOps (fun _ => []) c5wState c5wOps).2.1).Nodup ∧
    (∀ e ∈ (runOps (fun _ => []) c5wState c5wOps).2.1, 1 ≤ e) ∧
    ((runOps (fun _ => []) c5wState c5wOps).2.2).Nodup ∧
    (∀ owner bump ts, (initLockbox owner bump ts).next_entry_id = 1) ∧
    (∀ op ops₂, (applyOp (fun _ => []) c5wState op).isOk = false →
      runOps (fun _ => []) c5wState (op :: ops₂) =
        runOps (fun _ => []) c5wState ops₂) :=
  C5_monotonic_ids (fun _ => []) c5wState c5wOps (by decide)

theorem completeV2_spec (hash : List Byte → List Byte) (cfg : RecoveryConfigV2)
    (req : RecoveryRequestV2) (lb : MasterLockbox) (now : Int) (cp ms : List Byte)
    (p : RecoveryRequestV2 × MasterLockbox) :
    complete_recovery_with_proof_handler hash cfg req lb now cp ms = .ok p ↔
      (cfg.threshold ≤ req.participating_guardians.length ∧
       req.status = .ReadyForReconstruction ∧ now ≤ req.expires_at ∧
       hash ms = cfg.master_secret_hash ∧ hash cp = req.challenge.challenge_hash ∧
       p = ({ req with status := .Completed },
            { lb with owner := req.new_owner.getD req.requester })) := by
  simp only [complete_recovery_with_proof_handler,
    RecoveryRequestV2.has_sufficient_participants, decide_eq_true_eq]
  split_ifs with h1 h2 h3 h4 h5
  · constructor
    · intro hok
      simp only [Except.ok.injEq] at hok
      exact ⟨h1, h2, h3, h4, h5, hok.symm⟩
    · rintro ⟨-, -, -, -, -, hp⟩
      rw [hp]
  · constructor
    · intro hok
      exact hok.elim
    · rintro ⟨-, -, -, -, hx, -⟩
      exact absurd hx h5
  · constructor
    · intro hok
      exact hok.elim
    · rintro ⟨-, -, -, hx, -⟩
      exact absurd hx h4
  · constructor
    · intro hok
      exact hok.elim
    · rintro ⟨-, -, hx, -⟩
      exact absurd hx h3
  · constructor
    · intro hok
      exact hok.elim
    · rintro ⟨-, hx, -⟩
      exact absurd hx h2
  · constructor
    · intro hok
      exact hok.elim
    · rintro ⟨hx, -⟩
      exact absurd hx h1

/-- C1.  V2 recovery completion authorizes the ownership transfer only
when both recomputed digests match the stored commitments: a
successful call implies SHA-256 of the supplied master secret equals
the config's master_secret_hash and SHA-256 of the supplied challenge
plaintext equals the request's challenge_hash; under status
ReadyForReconstruction, threshold participants, now ≤ expires_at and
both matches the call succeeds, the owner becomes the designated new
owner (or the requester when none was set) and the status becomes
Completed; when either hash mismatches the call fails and the
committed request/lockbox state is unchanged. -/
theorem C1_complete_v2_hash_gate (hash : List Byte → List Byte)
    (cfg : RecoveryConfigV2) (req : RecoveryRequestV2) (lb : MasterLockbox)
    (now : Int) (cp ms : List Byte) :
    (∀ req' lb',
      complete_recovery_with_proof_handler hash cfg req lb now cp ms = .ok (req', lb') →
      hash ms = cfg.master_secret_hash ∧ hash cp = req.challenge.challenge_hash ∧
      req' = { req with status := .Completed } ∧
      lb' = { lb with owner := req.new_owner.getD req.requester }) ∧
    (req.status = .ReadyForReconstruction →
      cfg.threshold ≤ req.participating_guardians.length →
      now ≤ req.expires_at →
      hash ms = cfg.master_secret_hash →
      hash cp = req.challenge.challenge_hash →
      complete_recovery_with_proof_handler hash cfg req lb now cp ms =
        .ok ({ req with status := .Completed },
             { lb with owner := req.new_owner.getD req.requester })) ∧
    ((hash ms ≠ cfg.master_secret_hash ∨ hash cp ≠ req.challenge.challenge_hash) →
      committedV2 (complete_recovery_with_proof_handler hash cfg req lb now cp ms)
          req lb = (req, lb)) := by
  refine ⟨?_, ?_, ?_⟩
  · intro req' lb' hok
    obtain ⟨-, -, -, hm, hc, hp⟩ := (completeV2_spec hash cfg req lb now cp ms _).mp hok
    simp only [Prod.mk.injEq] at hp
    exact ⟨hm, hc, hp.1, hp.2⟩
  · intro h2 h1 h3 h4 h5
    exact (completeV2_spec hash cfg req lb now cp ms _).mpr ⟨h1, h2, h3, h4, h5, rfl⟩
  · intro hbad
    cases hres : complete_recovery_with_proof_handler hash cfg req lb now cp ms with
    | error e => simp [committedV2]
    | ok p =>
      obtain ⟨-, -, -, hm, hc, -⟩ := (completeV2_spec hash cfg req lb now cp ms p).mp hres
      rcases hbad with hb | hb
      · exact absurd hm hb
      · exact absurd hc hb

theorem C1_complete_v2_hash_gate_witness :
    complete_recovery_with_proof_handler (fun _ => [0]) c1wCfg c1wReq
        (initLockbox 1 0 0) 150 [] [] =
      .ok ({ c1wReq with status := .Completed },
           { initLockbox 1 0 0 with owner := 2 }) :=
  (C1_complete_v2_hash_gate (fun _ => [0]) c1wCfg c1wReq (initLockbox 1 0 0)
      150 [] []).2.1 (by decide) (by decide) (by decide) (by decide) (by decide)

/-- C2 (counterexample).  At time now = 0, strictly before
ready_at = 100, both completion operations SUCCEED on a session in
status ReadyForReconstruction with threshold participants: the V1
complete handler never reads the clock at all, and the V2 complete
handler only compares now with expires_at — so completion before
ready_at is not rejected with a timing error, refuting the claim as
stated. -/
theorem C2_counterexample :
    ((0 : Int) < c2Req1.ready_at ∧
      complete_recovery_handler c2Cfg1 c2Req1 (initLockbox 1 0 0) =
        .ok ({ c2Req1 with status := .Completed },
             { initLockbox 1 0 0 with owner := 2 })) ∧
    ((0 : Int) < c2Req2.ready_at ∧
      complete_recovery_with_proof_handler (fun _ => [0]) c2Cfg2 c2Req2
          (initLockbox 1 0 0) 0 [] [] =
        .ok ({ c2Req2 with status := .Completed },
             { initLockbox 1 0 0 with owner := 2 })) := by
  refine ⟨⟨by decide, ?_⟩, ⟨by decide, ?_⟩⟩
  · rfl
  · rfl

/-- C2 (amended).  Neither completion operation performs a timing
check against ready_at.  V1 complete succeeds exactly when approvals
have reached the threshold and the status is ReadyForReconstruction
(it never reads the clock); V2 complete succeeds exactly when
participants have reached the threshold, the status is
ReadyForReconstruction, now ≤ expires_at, and both proof hashes match
the stored commitments.  (A session can only reach
ReadyForReconstruction through an approval/confirmation call, which
is itself gated on now ≥ ready_at.) -/
theorem C2_amended_complete_no_timelock (cfg1 : RecoveryConfig)
    (req1 : RecoveryRequest) (lb1 : MasterLockbox)
    (hash : List Byte → List Byte) (cfg2 : RecoveryConfigV2)
    (req2 : RecoveryRequestV2) (lb2 : MasterLockbox) (now : Int)
    (cp ms : List Byte) :
    ((complete_recovery_handler cfg1 req1 lb1).isOk = true ↔
      (cfg1.threshold ≤ req1.approvals.length ∧
        req1.status = .ReadyForReconstruction)) ∧
    ((complete_recovery_with_proof_handler hash cfg2 req2 lb2 now cp ms).isOk = true ↔
      (cfg2.threshold ≤ req2.participating_guardians.length ∧
        req2.status = .ReadyForReconstruction ∧ now ≤ req2.expires_at ∧
        hash ms = cfg2.master_secret_hash ∧
        hash cp = req2.challenge.challenge_hash)) := by
  constructor
  · simp only [complete_recovery_handler, RecoveryRequest.has_sufficient_approvals,
      decide_eq_true_eq]
    split_ifs with ha hb
    · simp only [Except.isOk, Except.toBool]
      exact iff_of_true trivial ⟨ha, hb⟩
    · simp only [Except.isOk, Except.toBool]
      constructor
      · intro hfalse
        exact Bool.noConfusion hfalse
      · rintro ⟨-, hx⟩
        exact absurd hx hb
    · simp only [Except.isOk, Except.toBool]
      constructor
      · intro hfalse
        exact Bool.noConfusion hfalse
      · rintro ⟨hx, -⟩
        exact absurd hx ha
  · cases hres : complete_recovery_with_proof_handler hash cfg2 req2 lb2 now cp ms with
    | ok p =>
      obtain ⟨g1, g2, g3, g4, g5, -⟩ :=
        (completeV2_spec hash cfg2 req2 lb2 now cp ms p).mp hres
      simp only [Except.isOk, Except.toBool]
      exact iff_of_true trivial ⟨g1, g2, g3, g4, g5⟩
    | error e =>
      simp only [Except.isOk, Except.toBool]
      constructor
      · intro hfalse
        exact Bool.noConfusion hfalse
      · rintro ⟨g1, g2, g3, g4, g5⟩
        have := (completeV2_spec hash cfg2 req2 lb2 now cp ms
          ({ req2 with status := .Completed },
           { lb2 with owner := req2.new_owner.getD req2.requester })).mpr
          ⟨g1, g2, g3, g4, g5, rfl⟩
        rw [hres] at this
        exact Except.noConfusion this

/-- C6.  A timely (ready_at ≤ now ≤ expires_at), non-duplicate
confirmation by an Active guardian on a freshly initiated V2 request
is REJECTED with RecoveryNotReady: confirm_participation gates on
is_ready_for_proof, which requires status ReadyForReconstruction — a
status only ever set by confirmations reaching the threshold.  So the
guardian-confirmation phase of V2 recovery can never record anyone,
contradicting the claimed (and spec'd) accept condition. -/
theorem C6_confirm_deadlock :
    confirm_participation_handler c6Cfg c6Req 3 86401 = .error .RecoveryNotReady ∧
    c6Cfg.is_active_guardian 3 = true ∧
    c6Req.status = .Pending ∧
    c6Req.ready_at ≤ 86401 ∧ (86401 : Int) ≤ c6Req.expires_at ∧
    c6Req.has_guardian_confirmed 3 = false := by
  refine ⟨rfl, rfl, rfl, by decide, by decide, rfl⟩

/-- C7.  Guardian removal is blocked by the lockout guard computed
over the TOTAL guardian count: whenever guardians.len() ≤ threshold
(in particular when they are equal) every removeGuardian call fails,
for any caller and any identity, present or not; and a call succeeds
exactly when the caller is the owner, the identity is present, and
threshold ≤ (total - 1) as u8 — guardian statuses play no role. -/
theorem C7_threshold_lockout (cfg : RecoveryConfig) (caller g : Pubkey) (now : Int)
    (h256 : cfg.threshold < 256) :
    (cfg.guardians.length ≤ cfg.threshold →
      (remove_guardian_handler cfg caller g now).isOk = false) ∧
    ((remove_guardian_handler cfg caller g now).isOk = true ↔
      (cfg.owner = caller ∧ (∃ x ∈ cfg.guardians, x.guardian_pubkey = g) ∧
        cfg.threshold ≤ (cfg.guardians.length - 1) % 256)) := by
  have hmem : cfg.guardians.dropWhile (fun x => decide (x.guardian_pubkey ≠ g)) = [] ↔
      ∀ x ∈ cfg.guardians, x.guardian_pubkey ≠ g := by
    rw [List.dropWhile_eq_nil_iff]
    simp
  simp only [remove_guardian_handler]
  by_cases howner : cfg.owner = caller
  · rw [if_pos howner]
    cases hd : cfg.guardians.dropWhile (fun x => decide (x.guardian_pubkey ≠ g)) with
    | nil =>
      have hnone : ∀ x ∈ cfg.guardians, x.guardian_pubkey ≠ g := hmem.mp hd
      refine ⟨fun _ => rfl, ?_⟩
      constructor
      · intro hfalse
        exact absurd hfalse (by simp [Except.isOk, Except.toBool])
      · rintro ⟨-, ⟨x, hx, hxg⟩, -⟩
        exact absurd hxg (hnone x hx)
    | cons y post =>
      have hsome : ∃ x ∈ cfg.guardians, x.guardian_pubkey = g := by
        by_contra hno
        push_neg at hno
        rw [hmem.mpr hno] at hd
        exact List.noConfusion hd
      dsimp only
      by_cases ht : cfg.threshold ≤ (cfg.guardians.length - 1) % 256
      · rw [if_pos ht]
        refine ⟨?_, ?_⟩
        · intro hlen
          exfalso
          obtain ⟨x, hx, -⟩ := hsome
          have hpos := List.length_pos_of_mem hx
          omega
        · simp only [Except.isOk, Except.toBool]
          exact iff_of_true trivial ⟨howner, hsome, ht⟩
      · rw [if_neg ht]
        refine ⟨fun _ => rfl, ?_⟩
        constructor
        · intro hfalse
          exact absurd hfalse (by simp [Except.isOk, Except.toBool])
        · rintro ⟨-, -, hx⟩
          exact absurd hx ht
  · rw [if_neg howner]
    refine ⟨fun _ => rfl, ?_⟩
    constructor
    · intro hfalse
      exact absurd hfalse (by simp [Except.isOk, Except.toBool])
    · rintro ⟨hx, -⟩
      exact absurd hx howner

theorem C7_threshold_lockout_witness :
    (remove_guardian_handler c7wCfg 1 2 0).isOk = false :=
  (C7_threshold_lockout c7wCfg 1 2 0 (by decide)).1 (by decide)

/-- C10.  MasterLockbox::decrement_entries is total (it cannot fail)
and saturates at zero: on a vault with total_entries = 0 it is a
silent no-op, and otherwise it decreases total_entries by exactly one,
touching no other field. -/
theorem C10_decrement_saturating (lb : MasterLockbox) :
    ((lb.decrement_entries).total_entries = lb.total_entries - 1) ∧
    (lb.total_entries = 0 → lb.decrement_entries = lb) ∧
    (lb.decrement_entries = { lb with total_entries := lb.total_entries - 1 }) := by
  refine ⟨?_, ?_, ?_⟩
  · simp only [MasterLockbox.decrement_entries]
    split
    · rfl
    · rename_i hz
      omega
  · intro h0
    simp only [MasterLockbox.decrement_entries]
    rw [if_neg (by omega)]
  · simp only [MasterLockbox.decrement_entries]
    split
    · rfl
    · rename_i hz
      have : lb.total_entries - 1 = lb.total_entries := by omega
      rw [this]

theorem C10_decrement_saturating_witness :
    (initLockbox 1 0 0).decrement_entries = initLockbox 1 0 0 :=
  (C10_decrement_saturating (initLockbox 1 0 0)).2.1 (by decide)

/-- C8.  updateUsage fails with ChunkNotFound when no mirror entry has
the index; otherwise it adjusts storage_used by the signed difference
between the new size and the mirror's recorded size, and the
arithmetic is non-saturating and non-wrapping: a decrease larger than
the recorded total storage_used (or an increase overflowing u64)
aborts the instruction with an error instead of wrapping or
saturating. -/
theorem C8_update_usage_checked (lb : MasterLockbox) (chunk_index new_size : Nat) :
    (setMirrorSize chunk_index new_size lb.storage_chunks = none →
      lb.update_chunk_usage chunk_index new_size = .error .ChunkNotFound) ∧
    (∀ old chunks',
      setMirrorSize chunk_index new_size lb.storage_chunks = some (old, chunks') →
      (old < new_size →
        (lb.storage_used + (new_size - old) < U64LIM →
          lb.update_chunk_usage chunk_index new_size =
            .ok { lb with
                  storage_chunks := chunks'
                  storage_used := lb.storage_used + (new_size - old) }) ∧
        (U64LIM ≤ lb.storage_used + (new_size - old) →
          lb.update_chunk_usage chunk_index new_size = .error .RuntimeAbort)) ∧
      (new_size ≤ old →
        (old - new_size ≤ lb.storage_used →
          lb.update_chunk_usage chunk_index new_size =
            .ok { lb with
                  storage_chunks := chunks'
                  storage_used := lb.storage_used - (old - new_size) }) ∧
        (lb.storage_used < old - new_size →
          lb.update_chunk_usage chunk_index new_size = .error .RuntimeAbort))) := by
  constructor
  · intro hnone
    simp only [MasterLockbox.update_chunk_usage, hnone]
  · intro old chunks' hsome
    simp only [MasterLockbox.update_chunk_usage, hsome]
    constructor
    · intro hlt
      rw [if_pos hlt]
      constructor
      · intro hfits
        simp only [panicAdd]
        rw [if_pos hfits]
      · intro hover
        simp only [panicAdd]
        rw [if_neg (by omega)]
    · intro hle
      rw [if_neg (by omega)]
      constructor
      · intro hfits
        simp only [panicSub]
        rw [if_pos hfits]
      · intro hunder
        simp only [panicSub]
        rw [if_neg (by omega)]

theorem C8_update_usage_checked_witness :
    c8wLb.update_chunk_usage 0 0 = .error .RuntimeAbort :=
  (((C8_update_usage_checked c8wLb 0 0).2 100
      [{ chunk_address := 9, chunk_index := 0, max_capacity := 1024, size_used := 0,
         data_type := .Passwords, created_at := 0, last_modified := 0 }]
      (by rfl)).2 (by decide)).2 (by decide)

theorem shiftUp_noSE (d : Nat) (l : List DataEntryHeader) :
    shiftUp d l ≠ .error .SubscriptionExpired := by
  induction l with
  | nil =>
    intro h
    simp only [shiftUp] at h
    exact Except.noConfusion h
  | cons a t ih =>
    intro h
    simp only [shiftUp] at h
    cases hg : checkedAddU32 a.offset d with
    | none =>
      rw [hg] at h
      simp at h
    | some o =>
      rw [hg] at h
      dsimp only at h
      cases hr : shiftUp d t with
      | error e =>
        rw [hr] at h
        simp only [Except.error.injEq] at h
        subst h
        exact ih hr
      | ok t' =>
        rw [hr] at h
        simp at h

theorem shiftDown_noSE (d : Nat) (l : List DataEntryHeader) :
    shiftDown d l ≠ .error .SubscriptionExpired := by
  induction l with
  | nil =>
    intro h
    simp only [shiftDown] at h
    exact Except.noConfusion h
  | cons a t ih =>
    intro h
    simp only [shiftDown] at h
    cases hg : checkedSubU32 a.offset d with
    | none =>
      rw [hg] at h
      simp at h
    | some o =>
      rw [hg] at h
      dsimp only at h
      cases hr : shiftDown d t with
      | error e =>
        rw [hr] at h
        simp only [Except.error.injEq] at h
        subst h
        exact ih hr
      | ok t' =>
        rw [hr] at h
        simp at h

theorem add_entry_noSE (c : StorageChunk) (hdr : DataEntryHeader)
    (data : List Byte) (ts : Int) :
    c.add_entry hdr data ts ≠ .error .SubscriptionExpired := by
  intro h
  simp only [StorageChunk.add_entry] at h
  split at h
  · cases hm : checkedAddU32 c.current_size (data.length % U32LIM) with
    | none =>
      rw [hm] at h
      simp at h
    | some ns =>
      rw [hm] at h
      dsimp only at h
      split at h
      · split at h
        · simp at h
        · simp at h
      · simp at h
  · simp at h

theorem update_entry_noSE (c : StorageChunk) (entry_id : Nat)
    (data : List Byte) (ts : Int) :
    c.update_entry entry_id data ts ≠ .error .SubscriptionExpired := by
  intro h
  simp only [StorageChunk.update_entry] at h
  cases hd : c.entry_headers.dropWhile (fun x => decide (x.entry_id ≠ entry_id)) with
  | nil =>
    rw [hd] at h
    simp at h
  | cons oldh post =>
    rw [hd] at h
    dsimp only at h
    cases hm : (if oldh.size < data.length % U32LIM then
        checkedAddU32 c.current_size (data.length % U32LIM - oldh.size)
      else checkedSubU32 c.current_size (oldh.size - data.length % U32LIM)) with
    | none =>
      rw [hm] at h
      simp at h
    | some nt =>
      rw [hm] at h
      dsimp only at h
      split at h
      · split at h
        · split at h
          · split at h
            · split at h
              · simp at h
              · simp at h
            · simp at h
          · simp at h
        · split at h
          · cases hs : (if oldh.size < data.length % U32LIM then
                shiftUp (data.length % U32LIM - oldh.size) post
              else shiftDown (oldh.size - data.length % U32LIM) post) with
            | error e =>
              rw [hs] at h
              simp only [Except.error.injEq] at h
              subst h
              split at hs
              · exact shiftUp_noSE _ post hs
              · exact shiftDown_noSE _ post hs
            | ok post' =>
              rw [hs] at h
              dsimp only at h
              split at h
              · simp at h
              · simp at h
          · simp at h
      · simp at h

theorem delete_entry_noSE (c : StorageChunk) (entry_id : Nat) (ts : Int) :
    c.delete_entry entry_id ts ≠ .error .SubscriptionExpired := by
  intro h
  simp only [StorageChunk.delete_entry] at h
  cases hd : c.entry_headers.dropWhile (fun x => decide (x.entry_id ≠ entry_id)) with
  | nil =>
    rw [hd] at h
    simp at h
  | cons oldh post =>
    rw [hd] at h
    dsimp only at h
    split at h
    · split at h
      · cases hs : shiftDown oldh.size post with
        | error e =>
          rw [hs] at h
          simp only [Except.error.injEq] at h
          subst h
          exact shiftDown_noSE _ post hs
        | ok post' =>
          rw [hs] at h
          dsimp only at h
          split at h
          · split at h
            · simp at h
            · simp at h
          · simp at h
      · simp at h
    · simp at h

theorem get_entry_data_noSE (c : StorageChunk) (entry_id : Nat) :
    c.get_entry_data entry_id ≠ .error .SubscriptionExpired := by
  intro h
  simp only [StorageChunk.get_entry_data] at h
  split at h
  · simp at h
  · split at h
    · simp at h
    · simp at h

theorem bumpAccessCount_noSE (entry_id : Nat) (l : List DataEntryHeader) :
    bumpAccessCount entry_id l ≠ .error .SubscriptionExpired := by
  intro h
  simp only [bumpAccessCount] at h
  split at h
  · simp at h
  · split at h
    · simp at h
    · simp at h

theorem can_fit_noSE (c : StorageChunk) (n : Nat) :
    c.can_fit n ≠ .error .SubscriptionExpired := by
  intro h
  simp only [StorageChunk.can_fit, StorageChunk.available_space, panicSub] at h
  by_cases hc : c.current_size ≤ c.max_capacity
  · rw [if_pos hc] at h
    dsimp only at h
    exact Except.noConfusion h
  · rw [if_neg hc] at h
    dsimp only at h
    simp at h

theorem get_next_noSE (lb : MasterLockbox) :
    lb.get_next_entry_id ≠ .error .SubscriptionExpired := by
  intro h
  simp only [MasterLockbox.get_next_entry_id] at h
  cases hp : panicAdd U64LIM lb.next_entry_id 1 with
  | ok nn =>
    rw [hp] at h
    simp at h
  | error e =>
    rw [hp] at h
    simp only [Except.error.injEq] at h
    subst h
    simp only [panicAdd] at hp
    split at hp
    · simp at hp
    · simp at hp

theorem increment_noSE (lb : MasterLockbox) :
    lb.increment_entries ≠ .error .SubscriptionExpired := by
  intro h
  simp only [MasterLockbox.increment_entries] at h
  cases hp : panicAdd U64LIM lb.total_entries 1 with
  | ok nn =>
    rw [hp] at h
    simp at h
  | error e =>
    rw [hp] at h
    simp only [Except.error.injEq] at h
    subst h
    simp only [panicAdd] at hp
    split at hp
    · simp at hp
    · simp at hp

theorem update_chunk_usage_noSE (lb : MasterLockbox) (i n : Nat) :
    lb.update_chunk_usage i n ≠ .error .SubscriptionExpired := by
  intro h
  simp only [MasterLockbox.update_chunk_usage] at h
  split at h
  · simp at h
  · split at h
    · split at h
      · simp at h
      · rename_i e heq
        simp only [Except.error.injEq] at h
        subst h
        simp only [panicAdd] at heq
        split at heq
        · simp at heq
        · simp at heq
    · split at h
      · simp at h
      · rename_i e heq
        simp only [Except.error.injEq] at h
        subst h
        simp only [panicSub] at heq
        split at heq
        · simp at heq
        · simp at heq

/-- C9.  A Free-tier lockbox is considered active at every timestamp —
is_subscription_active ignores the clock and subscription_expires —
and consequently none of the store/retrieve/update/delete entry
handlers can fail with SubscriptionExpired on a Free-tier lockbox. -/
theorem C9_free_tier_active (lb : MasterLockbox) (now : Int)
    (hfree : lb.subscription_tier = .Free) :
    lb.is_subscription_active now = true ∧
    (∀ (c : StorageChunk) (data : List Byte) (et : PasswordEntryType)
      (cat : Nat) (th : List Byte),
      store_password_entry_handler lb c now data et cat th ≠
        .error .SubscriptionExpired) ∧
    (∀ (c : StorageChunk) (entry_id : Nat),
      retrieve_password_entry_handler lb c now entry_id ≠
        .error .SubscriptionExpired) ∧
    (∀ (c : StorageChunk) (entry_id : Nat) (data : List Byte),
      update_password_entry_handler lb c now entry_id data ≠
        .error .SubscriptionExpired) ∧
    (∀ (c : StorageChunk) (entry_id : Nat),
      delete_password_entry_handler lb c now entry_id ≠
        .error .SubscriptionExpired) := by
  have hact : lb.is_subscription_active now = true := by
    simp [MasterLockbox.is_subscription_active, hfree]
  refine ⟨hact, ?_, ?_, ?_, ?_⟩
  · intro c data et cat th h
    simp only [store_password_entry_handler] at h
    rw [if_pos hact] at h
    split at h
    · split at h
      · rename_i e heq
        simp only [Except.error.injEq] at h
        subst h
        exact can_fit_noSE c _ heq
      · split at h
        · split at h
          · rename_i e heq
            simp only [Except.error.injEq] at h
            subst h
            exact get_next_noSE lb heq
          · rename_i entry_id lb1 hnext
            split at h
            · rename_i e heq
              simp only [Except.error.injEq] at h
              subst h
              exact add_entry_noSE c _ data now heq
            · rename_i c2 hadd
              split at h
              · rename_i e heq
                simp only [Except.error.injEq] at h
                subst h
                exact update_chunk_usage_noSE lb1 c2.chunk_index c2.current_size heq
              · rename_i lb2 hupd
                split at h
                · rename_i e heq
                  simp only [Except.error.injEq] at h
                  subst h
                  exact increment_noSE lb2 heq
                · rename_i lb3 hinc
                  simp at h
        · simp at h
    · simp at h
  · intro c entry_id h
    simp only [retrieve_password_entry_handler] at h
    rw [if_pos hact] at h
    split at h
    · rename_i e heq
      simp only [Except.error.injEq] at h
      subst h
      exact get_entry_data_noSE c entry_id heq
    · rename_i d hdata
      split at h
      · rename_i e heq
        simp only [Except.error.injEq] at h
        subst h
        exact bumpAccessCount_noSE entry_id c.entry_headers heq
      · simp at h
  · intro c entry_id data h
    simp only [update_password_entry_handler] at h
    rw [if_pos hact] at h
    split at h
    · rename_i e heq
      simp only [Except.error.injEq] at h
      subst h
      exact update_entry_noSE c entry_id data now heq
    · rename_i c2 hupdc
      split at h
      · rename_i e heq
        simp only [Except.error.injEq] at h
        subst h
        exact update_chunk_usage_noSE lb c2.chunk_index c2.current_size heq
      · simp at h
  · intro c entry_id h
    simp only [delete_password_entry_handler] at h
    rw [if_pos hact] at h
    split at h
    · rename_i e heq
      simp only [Except.error.injEq] at h
      subst h
      exact delete_entry_noSE c entry_id now heq
    · rename_i c2 hdelc
      split at h
      · rename_i e heq
        simp only [Except.error.injEq] at h
        subst h
        exact update_chunk_usage_noSE lb c2.chunk_index c2.current_size heq
      · simp at h

theorem C9_free_tier_active_witness :
    (initLockbox 1 0 0).is_subscription_active 99999999 = true :=
  (C9_free_tier_active (initLockbox 1 0 0) 99999999 (by decide)).1

end Lockbox

